import Mathlib

/-!
Shallow embedding of the He Tu / Luo Shu 3D visualization core
(point catalog generation, sequence sorting, galaxy/helix/energy-path
coordinate generation, blend engine, animation state machine), together
with theorems checking the specification's claims against it.

Real-valued (float) arithmetic from the source is modelled over `ℝ`;
identifiers, group values and branching structure are kept exactly as in
the source so that counting/ordering/lookup properties are decidable.
-/

namespace HT

/-- Polarity of a dot (source: types.ts `Polarity`). -/
inductive Polarity where
  | YANG
  | YIN
deriving DecidableEq

/-- Structural direction group of a He Tu dot (source: types.ts `HeTuPoint.group`). -/
inductive HGroup where
  | north
  | south
  | east
  | west
  | center
deriving DecidableEq

/-- A He Tu catalog point (source: types.ts `HeTuPoint`). -/
structure HeTuPoint where
  id : String
  x : ℚ
  y : ℚ
  z : ℚ
  polarity : Polarity
  group : HGroup
  numberValue : ℕ
deriving DecidableEq

-- Cubic structure configuration (source: constants, v1.0 frozen)
def L : ℚ := 20
def Z_HEAVEN : ℚ := -L / 2
def Z_EARTH : ℚ := L / 2
def Z_CENTER : ℚ := 0
def SPACING : ℚ := 1.2
def EDGE_MARGIN : ℚ := 2.0
def TOP_Y : ℚ := L / 2 - EDGE_MARGIN
def BOTTOM_Y : ℚ := -(L / 2 - EDGE_MARGIN)
def LEFT_X : ℚ := -(L / 2 - EDGE_MARGIN)
def RIGHT_X : ℚ := L / 2 - EDGE_MARGIN
def CENTER_ROW_Y : ℚ := 3 * SPACING

/-- Helper to create a point (source: `createPoint`). -/
def createPoint (id : String) (x y z : ℚ) (polarity : Polarity) (group : HGroup)
    (numberValue : ℕ) : HeTuPoint :=
  { id := id, x := x, y := y, z := z, polarity := polarity, group := group,
    numberValue := numberValue }

/-- The full He Tu catalog (source: `generateHeTuPoints`), with the blocks pushed
in exactly the source's order. -/
def generateHeTuPoints : List HeTuPoint :=
  -- 1. HEAVEN LAYER (Z = -L/2, Back) - Yang/White
  ((List.range 7).map fun (i : ℕ) =>
    createPoint ("heaven-7-" ++ toString i) (((i : ℚ) - 3) * SPACING) TOP_Y Z_HEAVEN
      Polarity.YANG HGroup.south 7) ++
  [createPoint "heaven-1-0" 0 BOTTOM_Y Z_HEAVEN Polarity.YANG HGroup.north 1] ++
  ((List.range 9).map fun (i : ℕ) =>
    createPoint ("heaven-9-" ++ toString i) RIGHT_X (((i : ℚ) - 4) * SPACING) Z_HEAVEN
      Polarity.YANG HGroup.west 9) ++
  ((List.range 3).map fun (i : ℕ) =>
    createPoint ("heaven-3-" ++ toString i) LEFT_X (((i : ℚ) - 1) * SPACING) Z_HEAVEN
      Polarity.YANG HGroup.east 3) ++
  -- 2. EARTH LAYER (Z = +L/2, Front) - Yin/Black
  ((List.range 2).map fun (i : ℕ) =>
    createPoint ("earth-2-" ++ toString i) (((i : ℚ) - 0.5) * SPACING) TOP_Y Z_EARTH
      Polarity.YIN HGroup.south 2) ++
  ((List.range 6).map fun (i : ℕ) =>
    createPoint ("earth-6-" ++ toString i) (((i : ℚ) - 2.5) * SPACING) BOTTOM_Y Z_EARTH
      Polarity.YIN HGroup.north 6) ++
  ((List.range 8).map fun (i : ℕ) =>
    createPoint ("earth-8-" ++ toString i) LEFT_X (((i : ℚ) - 3.5) * SPACING) Z_EARTH
      Polarity.YIN HGroup.east 8) ++
  ((List.range 4).map fun (i : ℕ) =>
    createPoint ("earth-4-" ++ toString i) RIGHT_X (((i : ℚ) - 1.5) * SPACING) Z_EARTH
      Polarity.YIN HGroup.west 4) ++
  -- 3. CENTER PIVOT LAYER (Z = 0) - Soil
  [createPoint "center-5-mid" 0 0 Z_CENTER Polarity.YANG HGroup.center 5,
   createPoint "center-5-top" 0 SPACING Z_CENTER Polarity.YANG HGroup.center 5,
   createPoint "center-5-btm" 0 (-SPACING) Z_CENTER Polarity.YANG HGroup.center 5,
   createPoint "center-5-lft" (-SPACING) 0 Z_CENTER Polarity.YANG HGroup.center 5,
   createPoint "center-5-rgt" SPACING 0 Z_CENTER Polarity.YANG HGroup.center 5] ++
  ((List.range 5).map fun (i : ℕ) =>
    createPoint ("center-10-top-" ++ toString i) (((i : ℚ) - 2) * SPACING) CENTER_ROW_Y
      Z_CENTER Polarity.YIN HGroup.center 10) ++
  ((List.range 5).map fun (i : ℕ) =>
    createPoint ("center-10-btm-" ++ toString i) (((i : ℚ) - 2) * SPACING) (-CENTER_ROW_Y)
      Z_CENTER Polarity.YIN HGroup.center 10)

def CUBE_SIZE : ℚ := L

-- --- SORTING HELPER FOR FLUIDITY ---

/-- JavaScript `Array.prototype.indexOf`: index of the first occurrence, `-1` if absent. -/
def seqIndex (seq : List ℕ) (v : ℕ) : ℤ :=
  match seq with
  | [] => -1
  | a :: rest =>
    if a = v then 0
    else
      let r := seqIndex rest v
      if r = -1 then -1 else r + 1

def descendingGroups : List ℕ := [4, 6, 9]

/-- Lexicographic three-way comparison of character lists by code point. -/
def charListCmp : List Char → List Char → Ordering
  | [], [] => Ordering.eq
  | [], _ :: _ => Ordering.lt
  | _ :: _, [] => Ordering.gt
  | a :: as, b :: bs =>
    if a.toNat < b.toNat then Ordering.lt
    else if b.toNat < a.toNat then Ordering.gt
    else charListCmp as bs

/-- Three-way string comparison modelling `String.prototype.localeCompare`
on the ASCII identifiers used by the catalog (lexicographic). -/
def strCmp (a b : String) : Ordering :=
  charListCmp a.toList b.toList

/-- Strict lexicographic order on identifiers, as the comparison yielding `lt`. -/
def strLt (a b : String) : Prop := strCmp a b = Ordering.lt

/-- The comparator passed to `filtered.sort` inside `sortHeTuPoints`. -/
def heTuCmp (seq : List ℕ) (a b : HeTuPoint) : Ordering :=
  let idxA := seqIndex seq a.numberValue
  let idxB := seqIndex seq b.numberValue
  if idxA ≠ idxB then (if idxA < idxB then Ordering.lt else Ordering.gt)
  else if a.numberValue ∈ descendingGroups then strCmp b.id a.id
  else strCmp a.id b.id

/-- The weak order induced by the comparator (`comparator(a,b) <= 0`). -/
def heTuLE (seq : List ℕ) (a b : HeTuPoint) : Prop :=
  heTuCmp seq a b ≠ Ordering.gt

instance (seq : List ℕ) : DecidableRel (heTuLE seq) := fun a b => by
  unfold heTuLE
  infer_instance

/-- Source `sortHeTuPoints`: filter to the groups present in `sequence`,
then sort by the comparator (JS sort is stable; so is insertion sort). -/
def sortHeTuPoints (points : List HeTuPoint) (seq : List ℕ) : List HeTuPoint :=
  List.insertionSort (heTuLE seq) (points.filter fun p => decide (p.numberValue ∈ seq))

-- ============================================================================
-- 3D VECTOR / QUATERNION MODEL (three.js operations used by the source)
-- ============================================================================

/-- A 3D vector over the reals (models `THREE.Vector3`). -/
@[ext]
structure Vec3 where
  x : ℝ
  y : ℝ
  z : ℝ

/-- A 3D vector with rational components, for the source's exact numeric
constants (anchor coordinates); cast into `Vec3` where float math happens. -/
structure Vec3Q where
  x : ℚ
  y : ℚ
  z : ℚ
deriving DecidableEq

def castVec (v : Vec3Q) : Vec3 := ⟨(v.x : ℝ), (v.y : ℝ), (v.z : ℝ)⟩

def vadd (a b : Vec3) : Vec3 := ⟨a.x + b.x, a.y + b.y, a.z + b.z⟩

def smul (c : ℝ) (v : Vec3) : Vec3 := ⟨c * v.x, c * v.y, c * v.z⟩

def dotV (a b : Vec3) : ℝ := a.x * b.x + a.y * b.y + a.z * b.z

def lengthSqV (v : Vec3) : ℝ := v.x * v.x + v.y * v.y + v.z * v.z

def lengthSqQ (v : Vec3Q) : ℚ := v.x * v.x + v.y * v.y + v.z * v.z

noncomputable def lengthV (v : Vec3) : ℝ := Real.sqrt (lengthSqV v)

/-- Models `THREE.Vector3.normalize`: divide by `length() || 1` (the zero vector is
left unchanged). -/
noncomputable def normalizeV (v : Vec3) : Vec3 :=
  smul (if lengthV v = 0 then 1 else lengthV v)⁻¹ v

/-- Models `THREE.Vector3.lerp`: componentwise `a + (b - a) * t`. -/
def lerpV (a b : Vec3) (t : ℝ) : Vec3 :=
  ⟨a.x + (b.x - a.x) * t, a.y + (b.y - a.y) * t, a.z + (b.z - a.z) * t⟩

/-- A quaternion (models `THREE.Quaternion`). -/
structure Quat where
  x : ℝ
  y : ℝ
  z : ℝ
  w : ℝ

noncomputable def NUMBER_EPSILON : ℝ := ((2 : ℝ) ^ (52 : ℕ))⁻¹

/-- Models `THREE.Quaternion.normalize` (zero quaternion becomes the identity). -/
noncomputable def quatNormalize (q : Quat) : Quat :=
  let l := Real.sqrt (q.x * q.x + q.y * q.y + q.z * q.z + q.w * q.w)
  if l = 0 then ⟨0, 0, 0, 1⟩ else ⟨q.x / l, q.y / l, q.z / l, q.w / l⟩

/-- Models `THREE.Quaternion.setFromUnitVectors`: shortest-arc rotation from
`vFrom` to `vTo` (both assumed unit), with the antiparallel fallback. -/
noncomputable def setFromUnitVectors (vFrom vTo : Vec3) : Quat :=
  let r := dotV vFrom vTo + 1
  if r < NUMBER_EPSILON then
    (if |vFrom.x| > |vFrom.z| then quatNormalize ⟨-vFrom.y, vFrom.x, 0, 0⟩
     else quatNormalize ⟨0, -vFrom.z, vFrom.y, 0⟩)
  else
    quatNormalize
      ⟨vFrom.y * vTo.z - vFrom.z * vTo.y,
       vFrom.z * vTo.x - vFrom.x * vTo.z,
       vFrom.x * vTo.y - vFrom.y * vTo.x, r⟩

/-- Models `THREE.Vector3.applyQuaternion`. -/
def applyQuaternion (q : Quat) (v : Vec3) : Vec3 :=
  let tx := 2 * (q.y * v.z - q.z * v.y)
  let ty := 2 * (q.z * v.x - q.x * v.z)
  let tz := 2 * (q.x * v.y - q.y * v.x)
  ⟨v.x + q.w * tx + (q.y * tz - q.z * ty),
   v.y + q.w * ty + (q.z * tx - q.x * tz),
   v.z + q.w * tz + (q.x * ty - q.y * tx)⟩

-- ============================================================================
-- LO SHU CONSTANTS & GENERATION (STRICT GEOMETRY)
-- ============================================================================

def LOSHU_GRID_SIZE : ℚ := 12
def SPHERE_RADIUS : ℚ := 18

def TRIGRAMS : ℕ → String
  | 1 => "坎" | 2 => "坤" | 3 => "震" | 4 => "巽" | 5 => "中"
  | 6 => "乾" | 7 => "兑" | 8 => "艮" | 9 => "离" | _ => ""

def DIRECTIONS : ℕ → String
  | 1 => "北" | 2 => "西南" | 3 => "东" | 4 => "东南" | 5 => "中"
  | 6 => "西北" | 7 => "西" | 8 => "东北" | 9 => "南" | _ => ""

/-- Constant `D = R * 0.577` (cube-corner component magnitude). -/
def DCORNER : ℚ := SPHERE_RADIUS * 0.577

/-- Constant `D_CROSS = R * 0.707` (rotated equatorial magnitude). -/
def D_CROSS : ℚ := SPHERE_RADIUS * 0.707

/-- The strict spherical anchors (source: `LOSHU_ANCHORS`); keys outside 1..9
are absent from the source record and mapped to the zero vector here. -/
def LOSHU_ANCHORS : ℕ → Vec3Q
  | 9 => ⟨0, SPHERE_RADIUS, 0⟩
  | 1 => ⟨0, -SPHERE_RADIUS, 0⟩
  | 3 => ⟨-D_CROSS, 0, -D_CROSS⟩
  | 7 => ⟨D_CROSS, 0, D_CROSS⟩
  | 4 => ⟨-DCORNER, DCORNER, -DCORNER⟩
  | 2 => ⟨DCORNER, DCORNER, DCORNER⟩
  | 8 => ⟨-DCORNER, -DCORNER, -DCORNER⟩
  | 6 => ⟨DCORNER, -DCORNER, DCORNER⟩
  | 5 => ⟨0, 0, 0⟩
  | _ => ⟨0, 0, 0⟩

/-- 2D rotation helper (source: `rotate2D`). -/
noncomputable def rotate2D (x y angleRad : ℝ) : ℝ × ℝ :=
  (x * Real.cos angleRad - y * Real.sin angleRad,
   x * Real.sin angleRad + y * Real.cos angleRad)

/-- A Lo Shu catalog point (source: types.ts `LoShuPointData`). -/
structure LoShuPointData where
  id : String
  numberValue : ℕ
  polarity : Polarity
  planePos : Vec3
  spherePos : Vec3
  trigram : Option String
  direction : Option String

/-- The 2D local tally pattern for a Lo Shu group (source: the `offsets`
blocks inside `generateLoShuPoints`, with `gap = 1.3`). -/
noncomputable def loShuOffsets (num : ℕ) : List (ℝ × ℝ) :=
  let gap : ℝ := 1.3
  match num with
  | 1 => [(0, 0)]
  | 2 => [(-(gap / 1.5), -(gap / 1.5)), (gap / 1.5, gap / 1.5)]
  | 3 => [(0, gap), (0, 0), (0, -gap)]
  | 4 => [(0, gap * 1.2), (gap * 1.2, 0), (0, -(gap * 1.2)), (-(gap * 1.2), 0)]
  | 5 => [(0, 0), (0, gap * 0.6), (0, -(gap * 0.6)), (-(gap * 0.6), 0), (gap * 0.6, 0)]
  | 6 =>
    let w := gap * 0.8
    let h := gap * 0.8
    ([(-w, h * 2), (w, h * 2), (w, 0), (w, -(h * 2)), (-w, -(h * 2)), (-w, 0)]).map
      fun o => rotate2D o.1 o.2 (Real.pi / 4)
  | 7 => (List.range 7).map fun (k : ℕ) => ((0 : ℝ), (3 - (k : ℝ)) * (gap * 0.6))
  | 8 =>
    let w := gap * 0.8
    let h := gap * 0.6
    ([(-w, h * 3), (w, h * 3), (w, h), (w, -h), (w, -(h * 3)), (-w, -(h * 3)),
      (-w, -h), (-w, h)]).map fun o => rotate2D o.1 o.2 (-(Real.pi / 4))
  | 9 => (List.range 9).map fun (k : ℕ) => (((k : ℝ) - 4) * (gap * 0.6), (0 : ℝ))
  | _ => []

/-- One group's points (the body of the `numbers.forEach` loop in the
source's `generateLoShuPoints`). -/
noncomputable def loShuGroupPoints (num : ℕ) : List LoShuPointData :=
  let anchorPos := LOSHU_ANCHORS num
  let isYang := num % 2 ≠ 0
  let offsets := loShuOffsets num
  let isCenter := num = 5
  let quaternion : Quat :=
    if isCenter then ⟨0, 0, 0, 1⟩
    else setFromUnitVectors ⟨0, 0, 1⟩ (normalizeV (castVec anchorPos))
  offsets.enum.map fun (io : ℕ × (ℝ × ℝ)) =>
    let i := io.1
    let off := io.2
    let spherePosVec : Vec3 :=
      if isCenter then ⟨off.1, off.2, 0⟩
      else
        applyQuaternion quaternion
          (smul (SPHERE_RADIUS : ℝ) (normalizeV ⟨off.1, off.2, (SPHERE_RADIUS : ℝ)⟩))
    let gx : ℚ := if num = 3 ∨ num = 4 ∨ num = 8 then -1
      else if num = 7 ∨ num = 2 ∨ num = 6 then 1 else 0
    let gy : ℚ := if num = 9 ∨ num = 4 ∨ num = 2 then 1
      else if num = 1 ∨ num = 8 ∨ num = 6 then -1 else 0
    let planeBaseX := gx * LOSHU_GRID_SIZE
    let planeBaseY := gy * LOSHU_GRID_SIZE
    { id := "ls-" ++ toString num ++ "-" ++ toString i,
      numberValue := num,
      polarity := if isYang then Polarity.YANG else Polarity.YIN,
      planePos := ⟨(planeBaseX : ℝ) + off.1, (planeBaseY : ℝ) + off.2, 0⟩,
      spherePos := spherePosVec,
      trigram := if i = 0 then some (TRIGRAMS num) else none,
      direction := if i = 0 then some (DIRECTIONS num) else none }

/-- The full Lo Shu catalog (source: `generateLoShuPoints`). -/
noncomputable def generateLoShuPoints : List LoShuPointData :=
  ([1, 2, 3, 4, 5, 6, 7, 8, 9] : List ℕ).flatMap loShuGroupPoints

/-- Points of the He Tu catalog in a given direction group and number group,
projected to the data the cardinality claims talk about. -/
def heTuSlice (g : HGroup) (n : ℕ) : List (ℚ × Polarity) :=
  (generateHeTuPoints.filter fun p => decide (p.group = g ∧ p.numberValue = n)).map
    fun p => (p.z, p.polarity)

/-- Number of Lo Shu catalog points in number group `n`. -/
noncomputable def loShuGroupCount (n : ℕ) : ℕ :=
  (generateLoShuPoints.filter fun p => decide (p.numberValue = n)).length

/-- C1: the generated catalogs reproduce the fixed traditional group
cardinalities: on the He Tu heaven face (z = -L/2, YANG) south has 7 points,
north 1, west 9, east 3; on the earth face (z = +L/2, YIN) south has 2,
north 6, east 8, west 4; the center layer (z = 0) holds 5 YANG points of
group 5 and 10 YIN points of group 10 split into two rows of 5 (y = ±3·SPACING);
and the Lo Shu catalog has exactly the groups 1..9 with group k containing
exactly k points. -/
theorem C1_catalog_group_cardinalities :
    heTuSlice HGroup.south 7 = List.replicate 7 (Z_HEAVEN, Polarity.YANG) ∧
    heTuSlice HGroup.north 1 = List.replicate 1 (Z_HEAVEN, Polarity.YANG) ∧
    heTuSlice HGroup.west 9 = List.replicate 9 (Z_HEAVEN, Polarity.YANG) ∧
    heTuSlice HGroup.east 3 = List.replicate 3 (Z_HEAVEN, Polarity.YANG) ∧
    heTuSlice HGroup.south 2 = List.replicate 2 (Z_EARTH, Polarity.YIN) ∧
    heTuSlice HGroup.north 6 = List.replicate 6 (Z_EARTH, Polarity.YIN) ∧
    heTuSlice HGroup.east 8 = List.replicate 8 (Z_EARTH, Polarity.YIN) ∧
    heTuSlice HGroup.west 4 = List.replicate 4 (Z_EARTH, Polarity.YIN) ∧
    heTuSlice HGroup.center 5 = List.replicate 5 (Z_CENTER, Polarity.YANG) ∧
    heTuSlice HGroup.center 10 = List.replicate 10 (Z_CENTER, Polarity.YIN) ∧
    ((generateHeTuPoints.filter fun p => decide (p.numberValue = 10)).map fun p => p.y) =
      List.replicate 5 CENTER_ROW_Y ++ List.replicate 5 (-CENTER_ROW_Y) ∧
    loShuGroupCount 1 = 1 ∧ loShuGroupCount 2 = 2 ∧ loShuGroupCount 3 = 3 ∧
    loShuGroupCount 4 = 4 ∧ loShuGroupCount 5 = 5 ∧ loShuGroupCount 6 = 6 ∧
    loShuGroupCount 7 = 7 ∧ loShuGroupCount 8 = 8 ∧ loShuGroupCount 9 = 9 ∧
    generateLoShuPoints.all (fun p => decide (1 ≤ p.numberValue ∧ p.numberValue ≤ 9)) = true :=
  ⟨rfl, rfl, rfl, rfl, rfl, rfl, rfl, rfl, rfl, rfl, rfl, rfl, rfl, rfl, rfl, rfl, rfl,
   rfl, rfl, rfl, rfl⟩

-- ============================================================================
-- ANIMATION STATE MACHINE (source: App.tsx)
-- ============================================================================

/-- He Tu animation states (source: types.ts `AnimationState`). -/
inductive AnimationState where
  | STATIC
  | MORPHING
  | RUNNING
  | RETURNING
  | PAUSED
  | HELIX_MORPHING
  | HELIX_RUNNING
  | HELIX_PAUSED
deriving DecidableEq

/-- The state set by `handleGalaxyClick` (source: App.tsx); in `MORPHING`
no branch fires, so the state is unchanged. -/
def handleGalaxyClickState : AnimationState → AnimationState
  | AnimationState.HELIX_RUNNING => AnimationState.MORPHING
  | AnimationState.HELIX_PAUSED => AnimationState.MORPHING
  | AnimationState.HELIX_MORPHING => AnimationState.MORPHING
  | AnimationState.STATIC => AnimationState.MORPHING
  | AnimationState.RETURNING => AnimationState.MORPHING
  | AnimationState.RUNNING => AnimationState.PAUSED
  | AnimationState.PAUSED => AnimationState.RUNNING
  | AnimationState.MORPHING => AnimationState.MORPHING

/-- Whether `handleGalaxyClick` schedules the 1-second morph timer. -/
def galaxyClickSchedulesTimer : AnimationState → Bool
  | AnimationState.HELIX_RUNNING => true
  | AnimationState.HELIX_PAUSED => true
  | AnimationState.HELIX_MORPHING => true
  | AnimationState.STATIC => true
  | AnimationState.RETURNING => true
  | _ => false

/-- The morph timer callback: `setAnimState(curr => curr === MORPHING ? RUNNING : curr)`. -/
def morphTimerFire (curr : AnimationState) : AnimationState :=
  if curr = AnimationState.MORPHING then AnimationState.RUNNING else curr

/-- The state set by `handleReset` (source: App.tsx): any non-STATIC state
enters RETURNING; in STATIC nothing happens. -/
def handleResetState (s : AnimationState) : AnimationState :=
  if s ≠ AnimationState.STATIC then AnimationState.RETURNING else s

/-- Whether `handleReset` schedules the 1-second return timer. -/
def resetSchedulesTimer (s : AnimationState) : Bool :=
  decide (s ≠ AnimationState.STATIC)

/-- The return timer callback: `setAnimState(curr => curr === RETURNING ? STATIC : curr)`. -/
def returnTimerFire (curr : AnimationState) : AnimationState :=
  if curr = AnimationState.RETURNING then AnimationState.STATIC else curr

/-- C5: select-galaxy from STATIC enters MORPHING and schedules the morph
timer; the timer advances to RUNNING exactly when the state is still MORPHING
(and is a no-op on any other state); reset from any running/paused/morphing
state enters RETURNING and schedules the return timer, whose firing reaches
STATIC exactly when the state is still RETURNING; hence from STATIC a
select-galaxy intent followed by the morph duration elapsing with no further
input reaches RUNNING. -/
theorem C5_state_machine :
    (handleGalaxyClickState AnimationState.STATIC = AnimationState.MORPHING ∧
      galaxyClickSchedulesTimer AnimationState.STATIC = true) ∧
    morphTimerFire AnimationState.MORPHING = AnimationState.RUNNING ∧
    (∀ s : AnimationState,
      morphTimerFire s = s ∨
        (s = AnimationState.MORPHING ∧ morphTimerFire s = AnimationState.RUNNING)) ∧
    (handleResetState AnimationState.RUNNING = AnimationState.RETURNING ∧
      handleResetState AnimationState.PAUSED = AnimationState.RETURNING ∧
      handleResetState AnimationState.MORPHING = AnimationState.RETURNING ∧
      handleResetState AnimationState.HELIX_RUNNING = AnimationState.RETURNING ∧
      handleResetState AnimationState.HELIX_PAUSED = AnimationState.RETURNING ∧
      handleResetState AnimationState.HELIX_MORPHING = AnimationState.RETURNING ∧
      resetSchedulesTimer AnimationState.RUNNING = true ∧
      resetSchedulesTimer AnimationState.PAUSED = true ∧
      resetSchedulesTimer AnimationState.MORPHING = true ∧
      resetSchedulesTimer AnimationState.HELIX_RUNNING = true ∧
      resetSchedulesTimer AnimationState.HELIX_PAUSED = true ∧
      resetSchedulesTimer AnimationState.HELIX_MORPHING = true) ∧
    returnTimerFire AnimationState.RETURNING = AnimationState.STATIC ∧
    (∀ s : AnimationState,
      returnTimerFire s = s ∨
        (s = AnimationState.RETURNING ∧ returnTimerFire s = AnimationState.STATIC)) ∧
    morphTimerFire (handleGalaxyClickState AnimationState.STATIC) = AnimationState.RUNNING := by
  refine ⟨⟨rfl, rfl⟩, rfl, ?_, ⟨rfl, rfl, rfl, rfl, rfl, rfl, rfl, rfl, rfl, rfl, rfl, rfl⟩,
    rfl, ?_, rfl⟩
  · intro s
    cases s <;> simp [morphTimerFire]
  · intro s
    cases s <;> simp [returnTimerFire]

-- ============================================================================
-- INTERPOLATION / BLEND ENGINE (source: HeTuScene.tsx)
-- ============================================================================

/-- Mode-config position kind (source: types.ts `GalaxyPointType`). -/
inductive GalaxyPointType where
  | CORE
  | RING
  | ARM
deriving DecidableEq

/-- Per-point per-mode coordinate config (source: types.ts `GalaxyPointConfig`). -/
structure GalaxyPointConfig where
  type : GalaxyPointType
  r : ℝ
  thetaStart : ℝ
  speedFactor : ℝ
  zAmp : ℝ
  zFreq : ℝ
  yOffset : Option ℝ := none

def SPIN_SIGN : ℝ := -1
def GLOBAL_SPEED : ℝ := 1.0

/-- Source `getTargetPosition` (HeTuScene.tsx): evaluate the animated
position of a config at a given time. -/
noncomputable def getTargetPosition (g : GalaxyPointConfig) (time : ℝ) : Vec3 :=
  let thetaNow := g.thetaStart + SPIN_SIGN * g.speedFactor * time
  match g.yOffset with
  | some yOff => ⟨g.r * Real.cos thetaNow, yOff, g.r * Real.sin thetaNow⟩
  | none =>
    match g.type with
    | GalaxyPointType.CORE =>
      ⟨g.r * Real.cos g.thetaStart, g.r * Real.sin g.thetaStart, 0⟩
    | GalaxyPointType.RING =>
      ⟨g.r * Real.cos g.thetaStart, g.r * Real.sin g.thetaStart, 0⟩
    | GalaxyPointType.ARM =>
      ⟨g.r * Real.cos thetaNow, g.r * Real.sin thetaNow,
       Real.sin (thetaNow * g.zFreq) * g.zAmp⟩

/-- The per-frame blend of the static cube position with a target position
(source: `mesh.position.set(cx + (tx - cx) * morph, ...)` in `AnimatedPoints`). -/
def renderedPosition (staticPos target : Vec3) (morph : ℝ) : Vec3 :=
  ⟨staticPos.x + (target.x - staticPos.x) * morph,
   staticPos.y + (target.y - staticPos.y) * morph,
   staticPos.z + (target.z - staticPos.z) * morph⟩

/-- C3: for every static position, every mode config and every time, the
blended render position equals the static position exactly at blend factor 0
and equals the mode-evaluated animated position `getTargetPosition` at blend
factor 1. -/
theorem C3_blend_identity_laws (p : Vec3) (g : GalaxyPointConfig) (t : ℝ) :
    renderedPosition p (getTargetPosition g t) 0 = p ∧
    renderedPosition p (getTargetPosition g t) 1 = getTargetPosition g t := by
  constructor <;> (ext <;> simp [renderedPosition])

-- ============================================================================
-- GALAXY ANIMATION CONFIGURATION (source: generateGalaxyMap)
-- ============================================================================

/-- Models `Math.atan2 y x` as the argument of the complex number `x + y i`. -/
noncomputable def atan2 (y x : ℝ) : ℝ := Complex.arg { re := x, im := y }

/-- A CORE entry: static radius/angle from the point's Cartesian position. -/
noncomputable def coreEntry (yOff : Option ℝ) (p : HeTuPoint) : String × GalaxyPointConfig :=
  (p.id,
   { type := GalaxyPointType.CORE,
     r := Real.sqrt ((p.x : ℝ) * (p.x : ℝ) + (p.y : ℝ) * (p.y : ℝ)),
     thetaStart := atan2 (p.y : ℝ) (p.x : ℝ),
     speedFactor := 0, zAmp := 0, zFreq := 0, yOffset := yOff })

/-- RING entries: evenly distributed by index around a fixed radius
(the `forEach((p, i) => ...)` loop over the center YIN points). -/
noncomputable def ringEntriesAux (count : ℕ) (rr : ℝ) (yOff : Option ℝ) :
    ℕ → List HeTuPoint → List (String × GalaxyPointConfig)
  | _, [] => []
  | i, p :: rest =>
    (p.id,
     { type := GalaxyPointType.RING, r := rr,
       thetaStart := (i : ℝ) / (count : ℝ) * Real.pi * 2,
       speedFactor := 0, zAmp := 0, zFreq := 0, yOffset := yOff }) ::
    ringEntriesAux count rr yOff (i + 1) rest

noncomputable def SPIRAL_START_R : ℝ := 5.8
noncomputable def SPIRAL_GROWTH_PER_RAD : ℝ := 2.8
noncomputable def DOT_ARC_SPACING : ℝ := 0.8
noncomputable def GROUP_ARC_GAP : ℝ := 1.8

/-- The body of `createSpiralArm`'s `armPoints.forEach` loop: walk the sorted
arm points accumulating the angle `phi` (`lastVal = none` encodes the JS
sentinel `lastNumberVal === -1`, which holds exactly on the first iteration). -/
noncomputable def spiralArmAux (offset : ℝ) :
    List HeTuPoint → ℝ → Option ℕ → List (String × GalaxyPointConfig)
  | [], _, _ => []
  | p :: rest, phi, lastVal =>
    let r := SPIRAL_START_R + SPIRAL_GROWTH_PER_RAD * phi
    let gap : ℝ :=
      match lastVal with
      | none => 0
      | some v => if p.numberValue ≠ v then GROUP_ARC_GAP else DOT_ARC_SPACING
    let phi2 :=
      match lastVal with
      | none => phi
      | some _ => phi + gap / r
    (p.id,
     { type := GalaxyPointType.ARM,
       r := SPIRAL_START_R + SPIRAL_GROWTH_PER_RAD * phi2,
       thetaStart := offset - phi2,
       speedFactor := 0.8,
       zAmp := 0 + phi2 * 0.2,
       zFreq := 1 }) ::
    spiralArmAux offset rest phi2 (some p.numberValue)

/-- Source `createSpiralArm`: sort the catalog by the target sequence and
walk it with accumulated angle starting at 0. -/
noncomputable def createSpiralArm (points : List HeTuPoint) (targetSequence : List ℕ)
    (armOffsetAngle : ℝ) : List (String × GalaxyPointConfig) :=
  spiralArmAux armOffsetAngle (sortHeTuPoints points targetSequence) 0 none

/-- Source `generateGalaxyMap`, as the association list of the record
assignments in program order (all keys are distinct). -/
noncomputable def generateGalaxyMap (points : List HeTuPoint) :
    List (String × GalaxyPointConfig) :=
  ((points.filter fun p =>
      decide (p.group = HGroup.center ∧ p.polarity = Polarity.YANG)).map (coreEntry none)) ++
  (ringEntriesAux
    (points.filter fun p =>
      decide (p.group = HGroup.center ∧ p.polarity = Polarity.YIN)).length 2.5 none 0
    (points.filter fun p =>
      decide (p.group = HGroup.center ∧ p.polarity = Polarity.YIN))) ++
  createSpiralArm points [1, 3, 7, 9] (-(Real.pi / 2)) ++
  createSpiralArm points [2, 4, 6, 8] (Real.pi / 2)

-- ============================================================================
-- HELIX (DNA) ANIMATION CONFIGURATION (source: generateHelixMap)
-- ============================================================================

noncomputable def HELIX_R_BOTTOM : ℝ := 5.5
noncomputable def HELIX_R_TOP : ℝ := 15.0
noncomputable def HELIX_DOT_STEP : ℝ := 0.8
noncomputable def HELIX_GROUP_GAP : ℝ := 3.5
noncomputable def RAD_PER_UNIT_HEIGHT : ℝ := 0.35

/-- The height step taken before placing a point: zero on the first
iteration, otherwise the group-gap or dot-step depending on a group change. -/
noncomputable def helixStep (lastVal : Option ℕ) (nv : ℕ) : ℝ :=
  match lastVal with
  | none => 0
  | some v => if nv ≠ v then HELIX_GROUP_GAP else HELIX_DOT_STEP

/-- First pass of `assignHelixPosition`: total strand height. -/
noncomputable def helixTotalAux : List HeTuPoint → Option ℕ → ℝ
  | [], _ => 0
  | p :: rest, lastVal => helixStep lastVal p.numberValue + helixTotalAux rest (some p.numberValue)

/-- Second pass of `assignHelixPosition`: walk the strand accumulating height. -/
noncomputable def helixAux (phase speedDir totalH startY : ℝ) :
    List HeTuPoint → ℝ → Option ℕ → List (String × GalaxyPointConfig)
  | [], _, _ => []
  | p :: rest, currentH, lastVal =>
    let h2 := currentH + helixStep lastVal p.numberValue
    let progress := if totalH > 0 then h2 / totalH else 0.5
    (p.id,
     { type := GalaxyPointType.ARM,
       r := HELIX_R_BOTTOM + (HELIX_R_TOP - HELIX_R_BOTTOM) * progress,
       thetaStart := phase + h2 * RAD_PER_UNIT_HEIGHT,
       speedFactor := speedDir,
       zAmp := 0, zFreq := 0,
       yOffset := some (startY + h2) }) ::
    helixAux phase speedDir totalH startY rest h2 (some p.numberValue)

/-- Source `assignHelixPosition`. -/
noncomputable def assignHelixPosition (points : List HeTuPoint) (seq : List ℕ)
    (phaseOffset speedDir : ℝ) : List (String × GalaxyPointConfig) :=
  let strandPoints := sortHeTuPoints points seq
  let totalH := helixTotalAux strandPoints none
  helixAux phaseOffset speedDir totalH (-totalH / 2) strandPoints 0 none

/-- Source `generateHelixMap`, as the association list of the record
assignments in program order. -/
noncomputable def generateHelixMap (points : List HeTuPoint) :
    List (String × GalaxyPointConfig) :=
  ((points.filter fun p =>
      decide (p.group = HGroup.center ∧ p.polarity = Polarity.YANG)).map (coreEntry (some 0))) ++
  (ringEntriesAux
    (points.filter fun p =>
      decide (p.group = HGroup.center ∧ p.polarity = Polarity.YIN)).length 2.5 (some 0) 0
    (points.filter fun p =>
      decide (p.group = HGroup.center ∧ p.polarity = Polarity.YIN))) ++
  assignHelixPosition points [1, 3, 7, 9] 0 (-1.0) ++
  assignHelixPosition points [2, 4, 6, 8] Real.pi (-1.0)

-- ============================================================================
-- SPIRAL ARM LEMMAS (C6 / C7)
-- ============================================================================

lemma spiralArmAux_cons_none (offset : ℝ) (p : HeTuPoint) (rest : List HeTuPoint) (phi : ℝ) :
    spiralArmAux offset (p :: rest) phi none =
      (p.id,
       { type := GalaxyPointType.ARM,
         r := SPIRAL_START_R + SPIRAL_GROWTH_PER_RAD * phi,
         thetaStart := offset - phi,
         speedFactor := 0.8,
         zAmp := 0 + phi * 0.2,
         zFreq := 1 }) ::
      spiralArmAux offset rest phi (some p.numberValue) := rfl

lemma spiralArmAux_cons_some (offset : ℝ) (p : HeTuPoint) (rest : List HeTuPoint) (phi : ℝ)
    (v : ℕ) :
    spiralArmAux offset (p :: rest) phi (some v) =
      (p.id,
       { type := GalaxyPointType.ARM,
         r := SPIRAL_START_R + SPIRAL_GROWTH_PER_RAD *
           (phi + (if p.numberValue ≠ v then GROUP_ARC_GAP else DOT_ARC_SPACING) /
             (SPIRAL_START_R + SPIRAL_GROWTH_PER_RAD * phi)),
         thetaStart := offset - (phi + (if p.numberValue ≠ v then GROUP_ARC_GAP else DOT_ARC_SPACING) /
             (SPIRAL_START_R + SPIRAL_GROWTH_PER_RAD * phi)),
         speedFactor := 0.8,
         zAmp := 0 + (phi + (if p.numberValue ≠ v then GROUP_ARC_GAP else DOT_ARC_SPACING) /
             (SPIRAL_START_R + SPIRAL_GROWTH_PER_RAD * phi)) * 0.2,
         zFreq := 1 }) ::
      spiralArmAux offset rest
        (phi + (if p.numberValue ≠ v then GROUP_ARC_GAP else DOT_ARC_SPACING) /
          (SPIRAL_START_R + SPIRAL_GROWTH_PER_RAD * phi))
        (some p.numberValue) := rfl

lemma spiral_r_pos {phi : ℝ} (h : 0 ≤ phi) :
    0 < SPIRAL_START_R + SPIRAL_GROWTH_PER_RAD * phi := by
  unfold SPIRAL_START_R SPIRAL_GROWTH_PER_RAD
  nlinarith

lemma spiral_growth_nonneg : (0 : ℝ) ≤ SPIRAL_GROWTH_PER_RAD := by
  unfold SPIRAL_GROWTH_PER_RAD
  norm_num

lemma spiral_gap_pos (c : Prop) [Decidable c] :
    (0 : ℝ) < if c then GROUP_ARC_GAP else DOT_ARC_SPACING := by
  by_cases h : c <;> simp [h, GROUP_ARC_GAP, DOT_ARC_SPACING] <;> norm_num

lemma spiral_phi_step_nonneg {phi : ℝ} (h : 0 ≤ phi) (c : Prop) [Decidable c] :
    0 ≤ phi + (if c then GROUP_ARC_GAP else DOT_ARC_SPACING) /
      (SPIRAL_START_R + SPIRAL_GROWTH_PER_RAD * phi) :=
  add_nonneg h (div_nonneg (spiral_gap_pos c).le (spiral_r_pos h).le)

lemma spiralArmAux_length (offset : ℝ) :
    ∀ (ps : List HeTuPoint) (phi : ℝ) (lastVal : Option ℕ),
      (spiralArmAux offset ps phi lastVal).length = ps.length
  | [], _, _ => rfl
  | _ :: rest, phi, lastVal => by
    cases lastVal <;>
      simp [spiralArmAux_cons_none, spiralArmAux_cons_some, spiralArmAux_length offset rest]

/-- Along any spiral arm walk started at a nonnegative accumulated angle,
each point's assigned radius is obtained from the previous one by adding
`SPIRAL_GROWTH_PER_RAD * gap / r_prev` (with the group-gap rule), and the
radii are monotonically non-decreasing. -/
lemma spiralArmAux_radius_chain (offset : ℝ) :
    ∀ (ps : List HeTuPoint) (phi : ℝ) (lastVal : Option ℕ), 0 ≤ phi →
      List.Chain'
        (fun pe qf : HeTuPoint × (String × GalaxyPointConfig) =>
          qf.2.2.r = pe.2.2.r + SPIRAL_GROWTH_PER_RAD *
              ((if qf.1.numberValue ≠ pe.1.numberValue then GROUP_ARC_GAP else DOT_ARC_SPACING) /
                pe.2.2.r) ∧
          pe.2.2.r ≤ qf.2.2.r)
        (ps.zip (spiralArmAux offset ps phi lastVal))
  | [], phi, lastVal, _ => by cases lastVal <;> simp [spiralArmAux]
  | [p], phi, lastVal, _ => by
    cases lastVal <;> simp [spiralArmAux_cons_none, spiralArmAux_cons_some, spiralArmAux]
  | p :: q :: rest2, phi, lastVal, h => by
    have key : ∀ phip : ℝ, 0 ≤ phip →
        List.Chain'
          (fun pe qf : HeTuPoint × (String × GalaxyPointConfig) =>
            qf.2.2.r = pe.2.2.r + SPIRAL_GROWTH_PER_RAD *
                ((if qf.1.numberValue ≠ pe.1.numberValue then GROUP_ARC_GAP
                  else DOT_ARC_SPACING) / pe.2.2.r) ∧
            pe.2.2.r ≤ qf.2.2.r)
          ((p :: q :: rest2).zip
            ((p.id,
              { type := GalaxyPointType.ARM,
                r := SPIRAL_START_R + SPIRAL_GROWTH_PER_RAD * phip,
                thetaStart := offset - phip,
                speedFactor := 0.8,
                zAmp := 0 + phip * 0.2,
                zFreq := 1 }) ::
              spiralArmAux offset (q :: rest2) phip (some p.numberValue))) := by
      intro phip hp
      rw [List.zip_cons_cons]
      refine List.chain'_cons'.mpr ⟨?_, spiralArmAux_radius_chain offset (q :: rest2) phip
        (some p.numberValue) hp⟩
      intro y hy
      rw [spiralArmAux_cons_some, List.zip_cons_cons, List.head?_cons, Option.mem_some_iff] at hy
      subst hy
      constructor
      · simp only
        ring
      · simp only
        have hr := spiral_r_pos hp
        have hg := (spiral_gap_pos (q.numberValue ≠ p.numberValue)).le
        have hd : 0 ≤ (if q.numberValue ≠ p.numberValue then GROUP_ARC_GAP
            else DOT_ARC_SPACING) / (SPIRAL_START_R + SPIRAL_GROWTH_PER_RAD * phip) :=
          div_nonneg hg hr.le
        nlinarith [mul_nonneg spiral_growth_nonneg hd]
    cases lastVal with
    | none =>
      rw [spiralArmAux_cons_none]
      exact key phi h
    | some v =>
      rw [spiralArmAux_cons_some]
      exact key _ (spiral_phi_step_nonneg h _)

/-- Along any spiral arm walk the assigned start angle strictly decreases
(the arm counter-winds: `theta = offset - phi` with `phi` strictly growing). -/
lemma spiralArmAux_theta_chain (offset : ℝ) :
    ∀ (ps : List HeTuPoint) (phi : ℝ) (lastVal : Option ℕ), 0 ≤ phi →
      List.Chain'
        (fun e f : String × GalaxyPointConfig => f.2.thetaStart < e.2.thetaStart)
        (spiralArmAux offset ps phi lastVal)
  | [], phi, lastVal, _ => by cases lastVal <;> simp [spiralArmAux]
  | [p], phi, lastVal, _ => by
    cases lastVal <;> simp [spiralArmAux_cons_none, spiralArmAux_cons_some, spiralArmAux]
  | p :: q :: rest2, phi, lastVal, h => by
    have key : ∀ phip : ℝ, 0 ≤ phip →
        List.Chain'
          (fun e f : String × GalaxyPointConfig => f.2.thetaStart < e.2.thetaStart)
          ((p.id,
            { type := GalaxyPointType.ARM,
              r := SPIRAL_START_R + SPIRAL_GROWTH_PER_RAD * phip,
              thetaStart := offset - phip,
              speedFactor := 0.8,
              zAmp := 0 + phip * 0.2,
              zFreq := 1 }) ::
            spiralArmAux offset (q :: rest2) phip (some p.numberValue)) := by
      intro phip hp
      refine List.chain'_cons'.mpr ⟨?_, spiralArmAux_theta_chain offset (q :: rest2) phip
        (some p.numberValue) hp⟩
      intro y hy
      rw [spiralArmAux_cons_some, List.head?_cons, Option.mem_some_iff] at hy
      subst hy
      simp only
      have hstep : 0 < (if q.numberValue ≠ p.numberValue then GROUP_ARC_GAP
          else DOT_ARC_SPACING) / (SPIRAL_START_R + SPIRAL_GROWTH_PER_RAD * phip) :=
        div_pos (spiral_gap_pos _) (spiral_r_pos hp)
      linarith
    cases lastVal with
    | none =>
      rw [spiralArmAux_cons_none]
      exact key phi h
    | some v =>
      rw [spiralArmAux_cons_some]
      exact key _ (spiral_phi_step_nonneg h _)

lemma spiralArmAux_head_theta (offset : ℝ) :
    ∀ (ps : List HeTuPoint), ps ≠ [] →
      (spiralArmAux offset ps 0 none).head?.map (fun e => e.2.thetaStart) = some offset
  | [], h => absurd rfl h
  | p :: rest, _ => by
    rw [spiralArmAux_cons_none]
    simp

/-- C6: in `generateGalaxyMap`, the odd-group arm `[1,3,7,9]` (offset -π/2)
pairs each traversal point with a config whose radius satisfies
`r_next = r_prev + SPIRAL_GROWTH_PER_RAD * gap / r_prev` with the
dot-spacing/group-gap rule, and the radii are monotonically non-decreasing
in traversal order (the arm has all 20 odd-group points). -/
theorem C6_galaxy_arm_radius_monotone :
    (sortHeTuPoints generateHeTuPoints [1, 3, 7, 9]).length = 20 ∧
    (createSpiralArm generateHeTuPoints [1, 3, 7, 9] (-(Real.pi / 2))).length = 20 ∧
    List.Chain'
      (fun pe qf : HeTuPoint × (String × GalaxyPointConfig) =>
        qf.2.2.r = pe.2.2.r + SPIRAL_GROWTH_PER_RAD *
            ((if qf.1.numberValue ≠ pe.1.numberValue then GROUP_ARC_GAP else DOT_ARC_SPACING) /
              pe.2.2.r) ∧
        pe.2.2.r ≤ qf.2.2.r)
      ((sortHeTuPoints generateHeTuPoints [1, 3, 7, 9]).zip
        (createSpiralArm generateHeTuPoints [1, 3, 7, 9] (-(Real.pi / 2)))) := by
  refine ⟨by decide, ?_, ?_⟩
  · unfold createSpiralArm
    rw [spiralArmAux_length]
    decide
  · unfold createSpiralArm
    exact spiralArmAux_radius_chain _ _ _ _ le_rfl

/-- C7: the two spiral arms of `generateGalaxyMap` are created at the
opposite angular offsets -π/2 (odd arm) and +π/2 (even arm), the first point
of each arm is assigned exactly that offset angle, and along each arm the
assigned start angle strictly decreases (counter-winding as φ accumulates). -/
theorem C7_galaxy_arm_offsets_counterwind :
    generateGalaxyMap generateHeTuPoints =
      ((generateHeTuPoints.filter fun p =>
          decide (p.group = HGroup.center ∧ p.polarity = Polarity.YANG)).map (coreEntry none)) ++
      (ringEntriesAux
        (generateHeTuPoints.filter fun p =>
          decide (p.group = HGroup.center ∧ p.polarity = Polarity.YIN)).length 2.5 none 0
        (generateHeTuPoints.filter fun p =>
          decide (p.group = HGroup.center ∧ p.polarity = Polarity.YIN))) ++
      createSpiralArm generateHeTuPoints [1, 3, 7, 9] (-(Real.pi / 2)) ++
      createSpiralArm generateHeTuPoints [2, 4, 6, 8] (Real.pi / 2) ∧
    (Real.pi / 2) = -(-(Real.pi / 2)) ∧
    (createSpiralArm generateHeTuPoints [1, 3, 7, 9] (-(Real.pi / 2))).head?.map
        (fun e => e.2.thetaStart) = some (-(Real.pi / 2)) ∧
    (createSpiralArm generateHeTuPoints [2, 4, 6, 8] (Real.pi / 2)).head?.map
        (fun e => e.2.thetaStart) = some (Real.pi / 2) ∧
    List.Chain' (fun e f : String × GalaxyPointConfig => f.2.thetaStart < e.2.thetaStart)
      (createSpiralArm generateHeTuPoints [1, 3, 7, 9] (-(Real.pi / 2))) ∧
    List.Chain' (fun e f : String × GalaxyPointConfig => f.2.thetaStart < e.2.thetaStart)
      (createSpiralArm generateHeTuPoints [2, 4, 6, 8] (Real.pi / 2)) := by
  refine ⟨rfl, by ring, ?_, ?_, ?_, ?_⟩
  · unfold createSpiralArm
    exact spiralArmAux_head_theta _ _ (by decide)
  · unfold createSpiralArm
    exact spiralArmAux_head_theta _ _ (by decide)
  · unfold createSpiralArm
    exact spiralArmAux_theta_chain _ _ _ _ le_rfl
  · unfold createSpiralArm
    exact spiralArmAux_theta_chain _ _ _ _ le_rfl

-- ============================================================================
-- HELIX LEMMAS (C8)
-- ============================================================================

lemma helixAux_cons (phase speedDir totalH startY : ℝ) (p : HeTuPoint)
    (rest : List HeTuPoint) (currentH : ℝ) (lastVal : Option ℕ) :
    helixAux phase speedDir totalH startY (p :: rest) currentH lastVal =
      (p.id,
       { type := GalaxyPointType.ARM,
         r := HELIX_R_BOTTOM + (HELIX_R_TOP - HELIX_R_BOTTOM) *
           (if totalH > 0 then (currentH + helixStep lastVal p.numberValue) / totalH else 0.5),
         thetaStart := phase + (currentH + helixStep lastVal p.numberValue) * RAD_PER_UNIT_HEIGHT,
         speedFactor := speedDir,
         zAmp := 0, zFreq := 0,
         yOffset := some (startY + (currentH + helixStep lastVal p.numberValue)) }) ::
      helixAux phase speedDir totalH startY rest
        (currentH + helixStep lastVal p.numberValue) (some p.numberValue) := rfl

lemma helixAux_speedFactors (phase speedDir totalH startY : ℝ) :
    ∀ (ps : List HeTuPoint) (currentH : ℝ) (lastVal : Option ℕ),
      (helixAux phase speedDir totalH startY ps currentH lastVal).map
          (fun e => e.2.speedFactor) =
        List.replicate ps.length speedDir
  | [], _, _ => rfl
  | p :: rest, currentH, lastVal => by
    rw [helixAux_cons, List.map_cons,
      helixAux_speedFactors phase speedDir totalH startY rest _ _]
    simp [List.replicate_succ]

lemma helixAux_head (phase speedDir totalH startY : ℝ) (p : HeTuPoint)
    (rest : List HeTuPoint) :
    (helixAux phase speedDir totalH startY (p :: rest) 0 none).head?.map
        (fun e => (e.2.thetaStart, e.2.yOffset)) =
      some (phase, some startY) := by
  rw [helixAux_cons]
  simp [helixStep]

/-- C8: the two helix strands are generated with phase offsets exactly 0
(odd strand) and π (even strand) — a 180° offset —, both with the identical
rotation speed factor -1.0 on every strand point (same spin direction), and
each strand's first point sits at height `-totalHeight/2` (the strand is
vertically centered about the pivot layer). -/
theorem C8_helix_strand_structure :
    generateHelixMap generateHeTuPoints =
      ((generateHeTuPoints.filter fun p =>
          decide (p.group = HGroup.center ∧ p.polarity = Polarity.YANG)).map
            (coreEntry (some 0))) ++
      (ringEntriesAux
        (generateHeTuPoints.filter fun p =>
          decide (p.group = HGroup.center ∧ p.polarity = Polarity.YIN)).length 2.5 (some 0) 0
        (generateHeTuPoints.filter fun p =>
          decide (p.group = HGroup.center ∧ p.polarity = Polarity.YIN))) ++
      assignHelixPosition generateHeTuPoints [1, 3, 7, 9] 0 (-1.0) ++
      assignHelixPosition generateHeTuPoints [2, 4, 6, 8] Real.pi (-1.0) ∧
    (assignHelixPosition generateHeTuPoints [1, 3, 7, 9] 0 (-1.0)).head?.map
        (fun e => (e.2.thetaStart, e.2.yOffset)) =
      some (0, some (-(helixTotalAux (sortHeTuPoints generateHeTuPoints [1, 3, 7, 9]) none) / 2)) ∧
    (assignHelixPosition generateHeTuPoints [2, 4, 6, 8] Real.pi (-1.0)).head?.map
        (fun e => (e.2.thetaStart, e.2.yOffset)) =
      some (Real.pi,
        some (-(helixTotalAux (sortHeTuPoints generateHeTuPoints [2, 4, 6, 8]) none) / 2)) ∧
    Real.pi - 0 = Real.pi ∧
    (assignHelixPosition generateHeTuPoints [1, 3, 7, 9] 0 (-1.0)).map
        (fun e => e.2.speedFactor) = List.replicate 20 (-1.0) ∧
    (assignHelixPosition generateHeTuPoints [2, 4, 6, 8] Real.pi (-1.0)).map
        (fun e => e.2.speedFactor) = List.replicate 20 (-1.0) ∧
    ((-1.0 : ℝ) = -1) := by
  refine ⟨rfl, ?_, ?_, by ring, ?_, ?_, by norm_num⟩
  · unfold assignHelixPosition
    cases hcase : sortHeTuPoints generateHeTuPoints [1, 3, 7, 9] with
    | nil => exact absurd hcase (by decide)
    | cons p rest => exact helixAux_head _ _ _ _ p rest
  · unfold assignHelixPosition
    cases hcase : sortHeTuPoints generateHeTuPoints [2, 4, 6, 8] with
    | nil => exact absurd hcase (by decide)
    | cons p rest => exact helixAux_head _ _ _ _ p rest
  · unfold assignHelixPosition
    rw [helixAux_speedFactors,
      show (sortHeTuPoints generateHeTuPoints [1, 3, 7, 9]).length = 20 from by decide]
  · unfold assignHelixPosition
    rw [helixAux_speedFactors,
      show (sortHeTuPoints generateHeTuPoints [2, 4, 6, 8]).length = 20 from by decide]

-- ============================================================================
-- MAP KEY COVERAGE (C10)
-- ============================================================================

lemma lookup_isSome_of_mem_keys {β : Type} (k : String) :
    ∀ l : List (String × β), k ∈ l.map Prod.fst → (List.lookup k l).isSome = true
  | [], h => by simp at h
  | (k', v) :: t, h => by
    rw [List.map_cons] at h
    by_cases hk : k = k'
    · subst hk
      simp [List.lookup]
    · rcases List.mem_cons.mp h with h1 | h2
      · exact absurd h1 hk
      · have hbeq : (k == k') = false := by simp [beq_iff_eq, hk]
        simp only [List.lookup, hbeq]
        exact lookup_isSome_of_mem_keys k t h2

lemma spiralArmAux_keys (offset : ℝ) :
    ∀ (ps : List HeTuPoint) (phi : ℝ) (lastVal : Option ℕ),
      (spiralArmAux offset ps phi lastVal).map Prod.fst = ps.map (fun p => p.id)
  | [], _, _ => rfl
  | p :: rest, phi, lastVal => by
    cases lastVal <;>
      simp [spiralArmAux_cons_none, spiralArmAux_cons_some, spiralArmAux_keys offset rest]

lemma helixAux_keys (phase speedDir totalH startY : ℝ) :
    ∀ (ps : List HeTuPoint) (currentH : ℝ) (lastVal : Option ℕ),
      (helixAux phase speedDir totalH startY ps currentH lastVal).map Prod.fst =
        ps.map (fun p => p.id)
  | [], _, _ => rfl
  | p :: rest, currentH, lastVal => by
    rw [helixAux_cons]
    simp [helixAux_keys phase speedDir totalH startY rest]

lemma ringEntriesAux_keys (count : ℕ) (rr : ℝ) (yOff : Option ℝ) :
    ∀ (i : ℕ) (ps : List HeTuPoint),
      (ringEntriesAux count rr yOff i ps).map Prod.fst = ps.map (fun p => p.id)
  | _, [] => rfl
  | i, p :: rest => by
    simp [ringEntriesAux, ringEntriesAux_keys count rr yOff (i + 1) rest]

lemma mem_keys_of_mem_sort {points : List HeTuPoint} {seq : List ℕ} {p : HeTuPoint}
    (hp : p ∈ points) (hv : p.numberValue ∈ seq) :
    p.id ∈ (sortHeTuPoints points seq).map (fun q => q.id) :=
  List.mem_map_of_mem _
    ((List.perm_insertionSort (heTuLE seq) _).mem_iff.mpr
      (List.mem_filter.mpr ⟨hp, decide_eq_true hv⟩))

/-- C10: for every point of the He Tu catalog, both the galaxy map and the
helix map contain a config entry keyed by that point's id (center YANG
points via CORE, center YIN points via RING, all other points via one of
the two arm/strand sequences), so the per-frame lookups never miss. -/
theorem C10_maps_cover_catalog :
    generateHeTuPoints.all (fun p =>
      (List.lookup p.id (generateGalaxyMap generateHeTuPoints)).isSome &&
      (List.lookup p.id (generateHelixMap generateHeTuPoints)).isSome) = true := by
  rw [List.all_eq_true]
  intro p hp
  rw [Bool.and_eq_true]
  have cover : (p.group = HGroup.center ∧ p.polarity = Polarity.YANG) ∨
      (p.group = HGroup.center ∧ p.polarity = Polarity.YIN) ∨
      p.numberValue ∈ ([1, 3, 7, 9] : List ℕ) ∨
      p.numberValue ∈ ([2, 4, 6, 8] : List ℕ) := by
    have hall : generateHeTuPoints.all (fun q =>
        decide ((q.group = HGroup.center ∧ q.polarity = Polarity.YANG) ∨
          (q.group = HGroup.center ∧ q.polarity = Polarity.YIN) ∨
          q.numberValue ∈ ([1, 3, 7, 9] : List ℕ) ∨
          q.numberValue ∈ ([2, 4, 6, 8] : List ℕ))) = true := by decide
    exact of_decide_eq_true (List.all_eq_true.mp hall p hp)
  have hgkeys : (generateGalaxyMap generateHeTuPoints).map Prod.fst =
      ((generateHeTuPoints.filter fun q =>
          decide (q.group = HGroup.center ∧ q.polarity = Polarity.YANG)).map fun q => q.id) ++
      ((generateHeTuPoints.filter fun q =>
          decide (q.group = HGroup.center ∧ q.polarity = Polarity.YIN)).map fun q => q.id) ++
      ((sortHeTuPoints generateHeTuPoints [1, 3, 7, 9]).map fun q => q.id) ++
      ((sortHeTuPoints generateHeTuPoints [2, 4, 6, 8]).map fun q => q.id) := by
    simp [generateGalaxyMap, createSpiralArm, spiralArmAux_keys, ringEntriesAux_keys,
      coreEntry, List.map_map, Function.comp]
  have hhkeys : (generateHelixMap generateHeTuPoints).map Prod.fst =
      ((generateHeTuPoints.filter fun q =>
          decide (q.group = HGroup.center ∧ q.polarity = Polarity.YANG)).map fun q => q.id) ++
      ((generateHeTuPoints.filter fun q =>
          decide (q.group = HGroup.center ∧ q.polarity = Polarity.YIN)).map fun q => q.id) ++
      ((sortHeTuPoints generateHeTuPoints [1, 3, 7, 9]).map fun q => q.id) ++
      ((sortHeTuPoints generateHeTuPoints [2, 4, 6, 8]).map fun q => q.id) := by
    simp [generateHelixMap, assignHelixPosition, helixAux_keys, ringEntriesAux_keys,
      coreEntry, List.map_map, Function.comp]
  have hmem : p.id ∈
      ((generateHeTuPoints.filter fun q =>
          decide (q.group = HGroup.center ∧ q.polarity = Polarity.YANG)).map fun q => q.id) ++
      ((generateHeTuPoints.filter fun q =>
          decide (q.group = HGroup.center ∧ q.polarity = Polarity.YIN)).map fun q => q.id) ++
      ((sortHeTuPoints generateHeTuPoints [1, 3, 7, 9]).map fun q => q.id) ++
      ((sortHeTuPoints generateHeTuPoints [2, 4, 6, 8]).map fun q => q.id) := by
    rcases cover with hc | hc | hc | hc
    · refine List.mem_append_left _ (List.mem_append_left _ (List.mem_append_left _ ?_))
      exact List.mem_map_of_mem _ (List.mem_filter.mpr ⟨hp, decide_eq_true hc⟩)
    · refine List.mem_append_left _ (List.mem_append_left _ (List.mem_append_right _ ?_))
      exact List.mem_map_of_mem _ (List.mem_filter.mpr ⟨hp, decide_eq_true hc⟩)
    · exact List.mem_append_left _ (List.mem_append_right _ (mem_keys_of_mem_sort hp hc))
    · exact List.mem_append_right _ (mem_keys_of_mem_sort hp hc)
  exact ⟨lookup_isSome_of_mem_keys _ _ (hgkeys ▸ hmem),
    lookup_isSome_of_mem_keys _ _ (hhkeys ▸ hmem)⟩

-- ============================================================================
-- COMPARATOR / SORT LEMMAS (C2)
-- ============================================================================

lemma charListCmp_eq_iff : ∀ (as bs : List Char), charListCmp as bs = Ordering.eq ↔ as = bs
  | [], [] => by simp [charListCmp]
  | [], _ :: _ => by simp [charListCmp]
  | _ :: _, [] => by simp [charListCmp]
  | a :: as, b :: bs => by
    simp only [charListCmp]
    by_cases h1 : a.toNat < b.toNat
    · rw [if_pos h1]
      refine iff_of_false (by simp) ?_
      intro hc
      injection hc with hab _
      subst hab
      exact lt_irrefl _ h1
    · by_cases h2 : b.toNat < a.toNat
      · rw [if_neg h1, if_pos h2]
        refine iff_of_false (by simp) ?_
        intro hc
        injection hc with hab _
        subst hab
        exact lt_irrefl _ h2
      · rw [if_neg h1, if_neg h2]
        have hab : a = b :=
          Char.eq_of_val_eq (UInt32.eq_of_val_eq (Fin.ext
            (Nat.le_antisymm (Nat.le_of_not_lt h2) (Nat.le_of_not_lt h1))))
        subst hab
        rw [charListCmp_eq_iff as bs]
        simp

lemma charListCmp_gt_iff : ∀ (as bs : List Char),
    charListCmp as bs = Ordering.gt ↔ charListCmp bs as = Ordering.lt
  | [], [] => by simp [charListCmp]
  | [], _ :: _ => by simp [charListCmp]
  | _ :: _, [] => by simp [charListCmp]
  | a :: as, b :: bs => by
    simp only [charListCmp]
    rcases Nat.lt_trichotomy a.toNat b.toNat with h | h | h
    · rw [if_pos h, if_neg (by omega), if_pos (by omega)]
      exact iff_of_false (by simp) (by simp)
    · rw [if_neg (by omega), if_neg (by omega), if_neg (by omega), if_neg (by omega)]
      exact charListCmp_gt_iff as bs
    · rw [if_neg (by omega), if_pos h, if_pos (by omega)]
      exact iff_of_true rfl rfl

lemma charListCmp_lt_trans : ∀ (as bs cs : List Char),
    charListCmp as bs = Ordering.lt → charListCmp bs cs = Ordering.lt →
      charListCmp as cs = Ordering.lt
  | [], [], cs, h1, _ => by simp [charListCmp] at h1
  | [], _ :: _, [], _, h2 => by simp [charListCmp] at h2
  | [], _ :: _, _ :: _, _, _ => by simp [charListCmp]
  | _ :: _, [], _, h1, _ => by simp [charListCmp] at h1
  | _ :: _, _ :: _, [], _, h2 => by simp [charListCmp] at h2
  | a :: as, b :: bs, c :: cs, h1, h2 => by
    simp only [charListCmp] at h1 h2 ⊢
    have hA : a.toNat < b.toNat ∨ (a.toNat = b.toNat ∧ charListCmp as bs = Ordering.lt) := by
      by_cases hab : a.toNat < b.toNat
      · exact Or.inl hab
      · by_cases hba : b.toNat < a.toNat
        · rw [if_neg hab, if_pos hba] at h1
          exact absurd h1 (by simp)
        · exact Or.inr ⟨by omega, by rwa [if_neg hab, if_neg hba] at h1⟩
    have hB : b.toNat < c.toNat ∨ (b.toNat = c.toNat ∧ charListCmp bs cs = Ordering.lt) := by
      by_cases hbc : b.toNat < c.toNat
      · exact Or.inl hbc
      · by_cases hcb : c.toNat < b.toNat
        · rw [if_neg hbc, if_pos hcb] at h2
          exact absurd h2 (by simp)
        · exact Or.inr ⟨by omega, by rwa [if_neg hbc, if_neg hcb] at h2⟩
    rcases hA with h | ⟨he, hr⟩ <;> rcases hB with h' | ⟨he', hr'⟩
    · rw [if_pos (by omega)]
    · rw [if_pos (by omega)]
    · rw [if_pos (by omega)]
    · rw [if_neg (by omega), if_neg (by omega)]
      exact charListCmp_lt_trans as bs cs hr hr'

lemma strCmp_eq_iff {a b : String} : strCmp a b = Ordering.eq ↔ a = b := by
  rw [strCmp, charListCmp_eq_iff]
  constructor
  · intro h
    cases a
    cases b
    simp only [String.toList] at h
    exact congrArg String.mk h
  · intro h
    rw [h]

lemma strCmp_gt_iff {a b : String} : strCmp a b = Ordering.gt ↔ strCmp b a = Ordering.lt :=
  charListCmp_gt_iff _ _

lemma strLt_trans {a b c : String} (h1 : strLt a b) (h2 : strLt b c) : strLt a c :=
  charListCmp_lt_trans _ _ _ h1 h2

/-- A comparison that is not `gt` is either strictly less or an equality. -/
lemma strLE_cases {a b : String} (h : strCmp a b ≠ Ordering.gt) : strLt a b ∨ a = b := by
  cases hc : strCmp a b with
  | lt => exact Or.inl hc
  | eq => exact Or.inr (strCmp_eq_iff.mp hc)
  | gt => exact absurd hc h

lemma strLE_trans {a b c : String} (h1 : strCmp a b ≠ Ordering.gt)
    (h2 : strCmp b c ≠ Ordering.gt) : strCmp a c ≠ Ordering.gt := by
  rcases strLE_cases h1 with h1' | rfl
  · rcases strLE_cases h2 with h2' | rfl
    · have h3 : strCmp a c = Ordering.lt := strLt_trans h1' h2'
      simp [h3]
    · have h3 : strCmp a b = Ordering.lt := h1'
      simp [h3]
  · exact h2

/-- The comparison is total: not both directions can be `gt`. -/
lemma strLE_total (a b : String) : strCmp a b ≠ Ordering.gt ∨ strCmp b a ≠ Ordering.gt := by
  by_cases h : strCmp a b = Ordering.gt
  · right
    have h' : strCmp b a = Ordering.lt := strCmp_gt_iff.mp h
    simp [h']
  · exact Or.inl h

lemma seqIndex_nonneg : ∀ (seq : List ℕ) (v : ℕ), v ∈ seq → 0 ≤ seqIndex seq v
  | [], v, h => absurd h (List.not_mem_nil v)
  | a :: rest, v, h => by
    simp only [seqIndex]
    by_cases hav : a = v
    · rw [if_pos hav]
    · rw [if_neg hav]
      have hv : v ∈ rest := by
        rcases List.mem_cons.mp h with h1 | h1
        · exact absurd h1.symm hav
        · exact h1
      have h0 := seqIndex_nonneg rest v hv
      rw [if_neg (by omega)]
      omega

lemma seqIndex_inj : ∀ (seq : List ℕ) (v w : ℕ), v ∈ seq → w ∈ seq →
    seqIndex seq v = seqIndex seq w → v = w
  | [], v, _, hv, _, _ => absurd hv (List.not_mem_nil v)
  | a :: rest, v, w, hv, hw, heq => by
    simp only [seqIndex] at heq
    by_cases hav : a = v <;> by_cases haw : a = w
    · exact hav.symm.trans haw
    · exfalso
      have hw' : w ∈ rest := by
        rcases List.mem_cons.mp hw with h1 | h1
        · exact absurd h1.symm haw
        · exact h1
      have h0 := seqIndex_nonneg rest w hw'
      rw [if_pos hav, if_neg haw, if_neg (by omega)] at heq
      omega
    · exfalso
      have hv' : v ∈ rest := by
        rcases List.mem_cons.mp hv with h1 | h1
        · exact absurd h1.symm hav
        · exact h1
      have h0 := seqIndex_nonneg rest v hv'
      rw [if_neg hav, if_pos haw, if_neg (by omega)] at heq
      omega
    · have hv' : v ∈ rest := by
        rcases List.mem_cons.mp hv with h1 | h1
        · exact absurd h1.symm hav
        · exact h1
      have hw' : w ∈ rest := by
        rcases List.mem_cons.mp hw with h1 | h1
        · exact absurd h1.symm haw
        · exact h1
      have h0v := seqIndex_nonneg rest v hv'
      have h0w := seqIndex_nonneg rest w hw'
      rw [if_neg hav, if_neg haw, if_neg (by omega), if_neg (by omega)] at heq
      exact seqIndex_inj rest v w hv' hw' (by omega)

/-- Normal form of the comparator order. -/
lemma heTuLE_iff (seq : List ℕ) (a b : HeTuPoint) :
    heTuLE seq a b ↔
      (seqIndex seq a.numberValue < seqIndex seq b.numberValue ∨
       (seqIndex seq a.numberValue = seqIndex seq b.numberValue ∧
         (if a.numberValue ∈ descendingGroups then strCmp b.id a.id ≠ Ordering.gt
          else strCmp a.id b.id ≠ Ordering.gt))) := by
  unfold heTuLE heTuCmp
  by_cases hne : seqIndex seq a.numberValue ≠ seqIndex seq b.numberValue
  · rw [if_pos hne]
    by_cases hlt : seqIndex seq a.numberValue < seqIndex seq b.numberValue
    · rw [if_pos hlt]
      simp [hlt]
    · rw [if_neg hlt]
      simp [hlt, hne]
  · rw [if_neg hne]
    push_neg at hne
    by_cases hd : a.numberValue ∈ descendingGroups
    · rw [if_pos hd]
      simp [hd, hne]
    · rw [if_neg hd]
      simp [hd, hne]

lemma heTuLE_total {seq : List ℕ} {a b : HeTuPoint} (ha : a.numberValue ∈ seq)
    (hb : b.numberValue ∈ seq) : heTuLE seq a b ∨ heTuLE seq b a := by
  rw [heTuLE_iff, heTuLE_iff]
  rcases lt_trichotomy (seqIndex seq a.numberValue) (seqIndex seq b.numberValue) with h | h | h
  · exact Or.inl (Or.inl h)
  · have hnv : a.numberValue = b.numberValue := seqIndex_inj seq _ _ ha hb h
    rcases strLE_total a.id b.id with hs | hs
    · by_cases hd : a.numberValue ∈ descendingGroups
      · refine Or.inr (Or.inr ⟨h.symm, ?_⟩)
        rw [← hnv] at *
        rw [if_pos hd]
        exact hs
      · refine Or.inl (Or.inr ⟨h, ?_⟩)
        rw [if_neg hd]
        exact hs
    · by_cases hd : a.numberValue ∈ descendingGroups
      · refine Or.inl (Or.inr ⟨h, ?_⟩)
        rw [if_pos hd]
        exact hs
      · refine Or.inr (Or.inr ⟨h.symm, ?_⟩)
        rw [← hnv] at *
        rw [if_neg hd]
        exact hs
  · exact Or.inr (Or.inl h)

lemma heTuLE_trans {seq : List ℕ} {a b c : HeTuPoint} (ha : a.numberValue ∈ seq)
    (hb : b.numberValue ∈ seq) (hc : c.numberValue ∈ seq)
    (h1 : heTuLE seq a b) (h2 : heTuLE seq b c) : heTuLE seq a c := by
  rw [heTuLE_iff] at h1 h2 ⊢
  rcases h1 with h1 | ⟨h1e, h1t⟩
  · rcases h2 with h2 | ⟨h2e, _⟩
    · exact Or.inl (h1.trans h2)
    · exact Or.inl (h2e ▸ h1)
  · rcases h2 with h2 | ⟨h2e, h2t⟩
    · exact Or.inl (h1e ▸ h2)
    · refine Or.inr ⟨h1e.trans h2e, ?_⟩
      have hab : a.numberValue = b.numberValue := seqIndex_inj seq _ _ ha hb h1e
      have hbc : b.numberValue = c.numberValue := seqIndex_inj seq _ _ hb hc h2e
      rw [← hab] at h2t
      by_cases hd : a.numberValue ∈ descendingGroups
      · rw [if_pos hd] at h1t h2t ⊢
        exact strLE_trans h2t h1t
      · rw [if_neg hd] at h1t h2t ⊢
        exact strLE_trans h1t h2t

/-- Inserting an element with a group value from `seq` into a sorted list of
such elements keeps it sorted (totality/transitivity of the comparator hold
on the filtered domain, which is all `sortHeTuPoints` ever sorts). -/
lemma sorted_orderedInsert_heTu (seq : List ℕ) (a : HeTuPoint) (ha : a.numberValue ∈ seq) :
    ∀ l : List HeTuPoint, (∀ x ∈ l, x.numberValue ∈ seq) → l.Sorted (heTuLE seq) →
      (List.orderedInsert (heTuLE seq) a l).Sorted (heTuLE seq)
  | [], _, _ => List.sorted_singleton a
  | b :: t, hall, hs => by
    rw [List.orderedInsert]
    have hb : b.numberValue ∈ seq := hall b (List.mem_cons_self b t)
    by_cases hab : heTuLE seq a b
    · rw [if_pos hab]
      rw [List.sorted_cons]
      refine ⟨?_, hs⟩
      intro x hx
      rcases List.mem_cons.mp hx with rfl | hxt
      · exact hab
      · have hx' : x.numberValue ∈ seq := hall x (List.mem_cons_of_mem b hxt)
        have hbx : heTuLE seq b x := (List.sorted_cons.mp hs).1 x hxt
        exact heTuLE_trans ha hb hx' hab hbx
    · rw [if_neg hab]
      have hba : heTuLE seq b a := (heTuLE_total ha hb).resolve_left hab
      rw [List.sorted_cons]
      constructor
      · intro x hx
        rcases (List.mem_orderedInsert (heTuLE seq)).mp hx with rfl | hxt
        · exact hba
        · exact (List.sorted_cons.mp hs).1 x hxt
      · exact sorted_orderedInsert_heTu seq a ha t
          (fun x hx => hall x (List.mem_cons_of_mem b hx)) (List.sorted_cons.mp hs).2

lemma sorted_insertionSort_heTu (seq : List ℕ) :
    ∀ l : List HeTuPoint, (∀ x ∈ l, x.numberValue ∈ seq) →
      (List.insertionSort (heTuLE seq) l).Sorted (heTuLE seq)
  | [], _ => List.sorted_nil
  | a :: l, hall => by
    rw [List.insertionSort]
    refine sorted_orderedInsert_heTu seq a (hall a (List.mem_cons_self a l)) _ ?_
      (sorted_insertionSort_heTu seq l fun x hx => hall x (List.mem_cons_of_mem a hx))
    intro x hx
    exact hall x (List.mem_cons_of_mem a ((List.perm_insertionSort _ l).mem_iff.mp hx))

lemma sortHeTuPoints_all_mem (points : List HeTuPoint) (seq : List ℕ) :
    ∀ x ∈ sortHeTuPoints points seq, x.numberValue ∈ seq := by
  intro x hx
  rw [sortHeTuPoints] at hx
  have hm := (List.perm_insertionSort _ _).mem_iff.mp hx
  exact of_decide_eq_true (List.mem_filter.mp hm).2

lemma sortHeTuPoints_sorted (points : List HeTuPoint) (seq : List ℕ) :
    (sortHeTuPoints points seq).Sorted (heTuLE seq) := by
  rw [sortHeTuPoints]
  refine sorted_insertionSort_heTu seq _ ?_
  intro x hx
  exact of_decide_eq_true (List.mem_filter.mp hx).2

/-- C2: `sortHeTuPoints` keeps exactly the points whose group value occurs in
the sequence (it is a permutation of the filtered catalog), orders them by the
position of the group value within the sequence, is idempotent under
re-sorting its own output, and within a group produces strictly descending
identifiers for groups 4, 6, 9 and strictly ascending identifiers for every
other group (given pairwise-distinct input identifiers). -/
theorem C2_sortHeTuPoints_properties (points : List HeTuPoint) (seq : List ℕ)
    (hids : (points.map fun p => p.id).Nodup) :
    (sortHeTuPoints points seq).Perm
      (points.filter fun p => decide (p.numberValue ∈ seq)) ∧
    (sortHeTuPoints points seq).Pairwise (fun a b =>
      seqIndex seq a.numberValue ≤ seqIndex seq b.numberValue) ∧
    sortHeTuPoints (sortHeTuPoints points seq) seq = sortHeTuPoints points seq ∧
    (sortHeTuPoints points seq).Pairwise (fun a b => a.numberValue = b.numberValue →
      if a.numberValue ∈ descendingGroups then strLt b.id a.id else strLt a.id b.id) := by
  have hperm : (sortHeTuPoints points seq).Perm
      (points.filter fun p => decide (p.numberValue ∈ seq)) :=
    List.perm_insertionSort _ _
  have hsorted := sortHeTuPoints_sorted points seq
  refine ⟨hperm, ?_, ?_, ?_⟩
  · refine hsorted.imp ?_
    intro a b hab
    rw [heTuLE_iff] at hab
    rcases hab with h | ⟨h, _⟩
    · exact h.le
    · exact h.le
  · have hfix : ((sortHeTuPoints points seq).filter fun p =>
        decide (p.numberValue ∈ seq)) = sortHeTuPoints points seq :=
      List.filter_eq_self.mpr fun a ha =>
        decide_eq_true (sortHeTuPoints_all_mem points seq a ha)
    show List.insertionSort (heTuLE seq) ((sortHeTuPoints points seq).filter fun p =>
      decide (p.numberValue ∈ seq)) = sortHeTuPoints points seq
    rw [hfix]
    exact hsorted.insertionSort_eq
  · have hndfilter : ((points.filter fun p =>
        decide (p.numberValue ∈ seq)).map fun p => p.id).Nodup :=
      List.Nodup.sublist (List.Sublist.map _ (List.filter_sublist points)) hids
    have hnd : ((sortHeTuPoints points seq).map fun p => p.id).Nodup :=
      (hperm.map _).nodup_iff.mpr hndfilter
    have hpw_ne : (sortHeTuPoints points seq).Pairwise (fun a b => a.id ≠ b.id) :=
      List.pairwise_map.mp hnd
    refine (List.Pairwise.and hsorted hpw_ne).imp ?_
    rintro a b ⟨hab, hne⟩ hnv
    rw [heTuLE_iff] at hab
    have hidx : seqIndex seq a.numberValue = seqIndex seq b.numberValue := by rw [hnv]
    rcases hab with h | ⟨_, ht⟩
    · rw [hidx] at h
      exact absurd h (lt_irrefl _)
    · by_cases hd : a.numberValue ∈ descendingGroups
      · rw [if_pos hd] at ht ⊢
        rcases strLE_cases ht with h | h
        · exact h
        · exact absurd h.symm hne
      · rw [if_neg hd] at ht ⊢
        rcases strLE_cases ht with h | h
        · exact h
        · exact absurd h hne

/-- Witness: the idempotence clause of C2 applied to the actual catalog and
the odd-arm sequence (the catalog's identifiers are pairwise distinct). -/
theorem C2_sortHeTuPoints_properties_witness :
    sortHeTuPoints (sortHeTuPoints generateHeTuPoints [1, 3, 7, 9]) [1, 3, 7, 9] =
      sortHeTuPoints generateHeTuPoints [1, 3, 7, 9] :=
  (C2_sortHeTuPoints_properties generateHeTuPoints [1, 3, 7, 9] (by decide)).2.2.1

-- ============================================================================
-- LO SHU CENTER GROUP (C4)
-- ============================================================================

/-- C4 counterexample: the second point of the Lo Shu center group 5
(`ls-5-1`, local offset (0, 0.6·gap)) does NOT have sphere position (0,0,0):
the special-cased center branch keeps the 2D offsets, so its sphere position
is (0, 0.78, 0). -/
theorem C4_counterexample :
    (generateLoShuPoints.find? fun p => p.id == "ls-5-1").map (fun p => p.spherePos) ≠
      some ⟨0, 0, 0⟩ := by
  have hfind : (generateLoShuPoints.find? fun p => p.id == "ls-5-1").map
      (fun p => p.spherePos) = some ⟨0, (1.3 : ℝ) * 0.6, 0⟩ := rfl
  rw [hfind]
  intro h
  rw [Option.some.injEq] at h
  have h2 := congrArg Vec3.y h
  norm_num at h2

/-- C4 (amended): the Lo Shu group 5 has exactly 5 points with local 2D
pattern offsets (0,0), (0, ±0.6·gap), (±0.6·gap, 0) (gap = 1.3, so
0.6·gap = 0.78), and the sphere-projection step special-cases the center
group with no rotation: each point's sphere position keeps its flat local
offsets in the XY plane at the sphere's center, `(off.x, off.y, 0)` — so only
the first, central point lies exactly at (0,0,0). -/
theorem C4_center_group_amended :
    loShuOffsets 5 = [(0, 0), (0, (1.3 : ℝ) * 0.6), (0, -((1.3 : ℝ) * 0.6)),
      (-((1.3 : ℝ) * 0.6), 0), ((1.3 : ℝ) * 0.6, 0)] ∧
    (generateLoShuPoints.filter fun p => decide (p.numberValue = 5)).map
        (fun p => (p.id, p.spherePos)) =
      [("ls-5-0", (⟨0, 0, 0⟩ : Vec3)), ("ls-5-1", ⟨0, (1.3 : ℝ) * 0.6, 0⟩),
       ("ls-5-2", ⟨0, -((1.3 : ℝ) * 0.6), 0⟩), ("ls-5-3", ⟨-((1.3 : ℝ) * 0.6), 0, 0⟩),
       ("ls-5-4", ⟨(1.3 : ℝ) * 0.6, 0, 0⟩)] ∧
    (0.78 : ℝ) = 1.3 * 0.6 := by
  refine ⟨rfl, rfl, by norm_num⟩

-- ============================================================================
-- LO SHU ENERGY PATH (source: generateLoShuEnergyPath) — C9
-- ============================================================================

def dotQ (a b : Vec3Q) : ℚ := a.x * b.x + a.y * b.y + a.z * b.z

/-- The per-leg endpoint position (source: the `getPos` closure): center
anchors map to the origin, others are normalized and scaled to
`SPHERE_RADIUS * radiusScale`. -/
noncomputable def getAnchorPos (num : ℕ) (radiusScale : ℝ) : Vec3 :=
  if lengthSqQ (LOSHU_ANCHORS num) < 0.1 then ⟨0, 0, 0⟩
  else smul ((SPHERE_RADIUS : ℝ) * radiusScale) (normalizeV (castVec (LOSHU_ANCHORS num)))

/-- One sampled point of a leg (the body of the inner `for j` loop):
linear for legs touching the center, otherwise manual SLERP with the
small-angle linear fallback, renormalized to the working radius. -/
noncomputable def slerpSample (vStart vEnd : Vec3) (isStartCenter isEndCenter : Bool)
    (radiusScale : ℝ) (t : ℝ) : Vec3 :=
  if isStartCenter || isEndCenter then lerpV vStart vEnd t
  else
    let nStart := normalizeV vStart
    let nEnd := normalizeV vEnd
    let d := max (-1) (min 1 (dotV nStart nEnd))
    let theta := Real.arccos d
    if |theta| < 0.0001 then
      smul ((SPHERE_RADIUS : ℝ) * radiusScale) (normalizeV (lerpV nStart nEnd t))
    else
      let sinTheta := Real.sin theta
      let w1 := Real.sin ((1 - t) * theta) / sinTheta
      let w2 := Real.sin (t * theta) / sinTheta
      smul ((SPHERE_RADIUS : ℝ) * radiusScale)
        (normalizeV (vadd (smul w1 nStart) (smul w2 nEnd)))

/-- All `segmentsPerLeg` samples of the leg from anchor `startNum` to anchor
`endNum`, at the fractions `t = j / segmentsPerLeg`. -/
noncomputable def legSamples (startNum endNum : ℕ) (radiusScale : ℝ)
    (segments : ℕ) : List Vec3 :=
  (List.range segments).map fun (j : ℕ) =>
    slerpSample (getAnchorPos startNum radiusScale) (getAnchorPos endNum radiusScale)
      (decide (lengthSqQ (LOSHU_ANCHORS startNum) < 0.1))
      (decide (lengthSqQ (LOSHU_ANCHORS endNum) < 0.1))
      radiusScale ((j : ℝ) / (segments : ℝ))

/-- Source `generateLoShuEnergyPath`: concatenated leg samples over the
consecutive anchor pairs of the sequence, closed by the actual final point. -/
noncomputable def generateLoShuEnergyPath (sequence : List ℕ) (radiusScale : ℝ)
    (segmentsPerLeg : ℕ) : List Vec3 :=
  ((sequence.zip sequence.tail).flatMap fun se =>
    legSamples se.1 se.2 radiusScale segmentsPerLeg) ++
  [getAnchorPos (sequence.getLastD 0) radiusScale]

-- Basic norm lemmas for the Vec3 model.

lemma lengthSqV_nonneg (v : Vec3) : 0 ≤ lengthSqV v := by
  unfold lengthSqV
  nlinarith [sq_nonneg v.x, sq_nonneg v.y, sq_nonneg v.z]

lemma lengthV_nonneg (v : Vec3) : 0 ≤ lengthV v := Real.sqrt_nonneg _

lemma lengthV_sq (v : Vec3) : lengthV v ^ 2 = lengthSqV v :=
  Real.sq_sqrt (lengthSqV_nonneg v)

lemma lengthV_pos {v : Vec3} (h : 0 < lengthSqV v) : 0 < lengthV v :=
  Real.sqrt_pos.mpr h

lemma lengthV_smul (c : ℝ) (v : Vec3) : lengthV (smul c v) = |c| * lengthV v := by
  unfold lengthV
  have h : lengthSqV (smul c v) = c ^ 2 * lengthSqV v := by
    unfold lengthSqV smul
    ring
  rw [h, Real.sqrt_mul (sq_nonneg c), Real.sqrt_sq_eq_abs]

lemma lengthV_normalizeV {v : Vec3} (h : lengthV v ≠ 0) : lengthV (normalizeV v) = 1 := by
  unfold normalizeV
  rw [if_neg h, lengthV_smul]
  have hpos : 0 < lengthV v := lt_of_le_of_ne (lengthV_nonneg v) (Ne.symm h)
  rw [abs_of_pos (inv_pos.mpr hpos)]
  field_simp

lemma lengthSqV_normalizeV {v : Vec3} (h : lengthV v ≠ 0) :
    lengthSqV (normalizeV v) = 1 := by
  rw [← lengthV_sq, lengthV_normalizeV h]
  norm_num

lemma normalizeV_of_unit {v : Vec3} (h : lengthV v = 1) : normalizeV v = v := by
  unfold normalizeV
  rw [if_neg (by rw [h]; norm_num), h]
  unfold smul
  ext <;> simp

lemma normalizeV_smul_pos {c : ℝ} (hc : 0 < c) {v : Vec3} (hv : lengthV v ≠ 0) :
    normalizeV (smul c v) = normalizeV v := by
  have hvpos : 0 < lengthV v := lt_of_le_of_ne (lengthV_nonneg v) (Ne.symm hv)
  have hl : lengthV (smul c v) = c * lengthV v := by
    rw [lengthV_smul, abs_of_pos hc]
  have hne : lengthV (smul c v) ≠ 0 := by
    rw [hl]
    positivity
  unfold normalizeV
  rw [if_neg hne, if_neg hv, hl]
  unfold smul
  ext <;> (simp only; field_simp; ring)

lemma dotV_unit_bounds {a b : Vec3} (ha : lengthSqV a = 1) (hb : lengthSqV b = 1) :
    -1 ≤ dotV a b ∧ dotV a b ≤ 1 := by
  have hcs : dotV a b ^ 2 ≤ lengthSqV a * lengthSqV b := by
    unfold dotV lengthSqV
    nlinarith [sq_nonneg (a.x * b.y - a.y * b.x), sq_nonneg (a.x * b.z - a.z * b.x),
      sq_nonneg (a.y * b.z - a.z * b.y)]
  rw [ha, hb] at hcs
  constructor <;> nlinarith

lemma lengthSqV_castVec (v : Vec3Q) : lengthSqV (castVec v) = ((lengthSqQ v : ℚ) : ℝ) := by
  unfold lengthSqV lengthSqQ castVec
  push_cast
  ring

lemma dotV_castVec (a b : Vec3Q) : dotV (castVec a) (castVec b) = ((dotQ a b : ℚ) : ℝ) := by
  unfold dotV dotQ castVec
  push_cast
  ring

lemma lengthSqV_lerp (a b : Vec3) (t : ℝ) :
    lengthSqV (lerpV a b t) =
      (1 - t) ^ 2 * lengthSqV a + 2 * (1 - t) * t * dotV a b + t ^ 2 * lengthSqV b := by
  unfold lengthSqV lerpV dotV
  ring

lemma lengthSqV_combo (w1 w2 : ℝ) (a b : Vec3) :
    lengthSqV (vadd (smul w1 a) (smul w2 b)) =
      w1 ^ 2 * lengthSqV a + 2 * w1 * w2 * dotV a b + w2 ^ 2 * lengthSqV b := by
  unfold lengthSqV vadd smul dotV
  ring

/-- The spherical-interpolation weight identity:
`sin²A + 2 sinA sinB cos(A+B) + sin²B = sin²(A+B)`. -/
lemma slerp_weight_identity (A B : ℝ) :
    Real.sin A ^ 2 + 2 * Real.sin A * Real.sin B * Real.cos (A + B) + Real.sin B ^ 2 =
      Real.sin (A + B) ^ 2 := by
  have h1 := Real.sin_sq_add_cos_sq A
  have h2 := Real.sin_sq_add_cos_sq B
  rw [Real.sin_add, Real.cos_add]
  nlinarith [h1, h2]

lemma dotV_smul (c c' : ℝ) (a b : Vec3) :
    dotV (smul c a) (smul c' b) = c * c' * dotV a b := by
  unfold dotV smul
  ring

lemma SPHERE_RADIUS_pos : (0 : ℝ) < (SPHERE_RADIUS : ℝ) := by
  norm_num [SPHERE_RADIUS]

/-- Core of C9: on a leg whose two anchors are non-center and whose
directions are not antipodal, every sample at a fraction `t ∈ [0,1)` lies at
distance exactly `SPHERE_RADIUS * radiusScale` from the origin. -/
lemma slerpSample_norm {s e : ℕ} {radiusScale : ℝ}
    (hs : ¬ lengthSqQ (LOSHU_ANCHORS s) < 0.1)
    (he : ¬ lengthSqQ (LOSHU_ANCHORS e) < 0.1)
    (hna : 0 ≤ dotQ (LOSHU_ANCHORS s) (LOSHU_ANCHORS e) ∨
      dotQ (LOSHU_ANCHORS s) (LOSHU_ANCHORS e) ^ 2 <
        lengthSqQ (LOSHU_ANCHORS s) * lengthSqQ (LOSHU_ANCHORS e))
    (hscale : 0 < radiusScale) {t : ℝ} (ht0 : 0 ≤ t) (ht1 : t < 1) :
    lengthV (slerpSample (getAnchorPos s radiusScale) (getAnchorPos e radiusScale)
      (decide (lengthSqQ (LOSHU_ANCHORS s) < 0.1))
      (decide (lengthSqQ (LOSHU_ANCHORS e) < 0.1)) radiusScale t) =
      (SPHERE_RADIUS : ℝ) * radiusScale := by
  have hrs : 0 < (SPHERE_RADIUS : ℝ) * radiusScale := mul_pos SPHERE_RADIUS_pos hscale
  have hsa : (0.1 : ℝ) ≤ lengthSqV (castVec (LOSHU_ANCHORS s)) := by
    rw [lengthSqV_castVec, show (0.1 : ℝ) = ((0.1 : ℚ) : ℝ) by norm_num]
    exact_mod_cast not_lt.mp hs
  have hsb : (0.1 : ℝ) ≤ lengthSqV (castVec (LOSHU_ANCHORS e)) := by
    rw [lengthSqV_castVec, show (0.1 : ℝ) = ((0.1 : ℚ) : ℝ) by norm_num]
    exact_mod_cast not_lt.mp he
  have hla : 0 < lengthV (castVec (LOSHU_ANCHORS s)) :=
    lengthV_pos (lt_of_lt_of_le (by norm_num) hsa)
  have hlb : 0 < lengthV (castVec (LOSHU_ANCHORS e)) :=
    lengthV_pos (lt_of_lt_of_le (by norm_num) hsb)
  have hnla : lengthV (normalizeV (castVec (LOSHU_ANCHORS s))) = 1 :=
    lengthV_normalizeV hla.ne'
  have hnlb : lengthV (normalizeV (castVec (LOSHU_ANCHORS e))) = 1 :=
    lengthV_normalizeV hlb.ne'
  have hgs : getAnchorPos s radiusScale =
      smul ((SPHERE_RADIUS : ℝ) * radiusScale) (normalizeV (castVec (LOSHU_ANCHORS s))) := by
    unfold getAnchorPos
    rw [if_neg hs]
  have hge : getAnchorPos e radiusScale =
      smul ((SPHERE_RADIUS : ℝ) * radiusScale) (normalizeV (castVec (LOSHU_ANCHORS e))) := by
    unfold getAnchorPos
    rw [if_neg he]
  have hn1 : normalizeV (getAnchorPos s radiusScale) = normalizeV (castVec (LOSHU_ANCHORS s)) := by
    rw [hgs, normalizeV_smul_pos hrs (by rw [hnla]; norm_num)]
    exact normalizeV_of_unit hnla
  have hn2 : normalizeV (getAnchorPos e radiusScale) = normalizeV (castVec (LOSHU_ANCHORS e)) := by
    rw [hge, normalizeV_smul_pos hrs (by rw [hnlb]; norm_num)]
    exact normalizeV_of_unit hnlb
  have hbs : decide (lengthSqQ (LOSHU_ANCHORS s) < 0.1) = false := decide_eq_false hs
  have hbe : decide (lengthSqQ (LOSHU_ANCHORS e) < 0.1) = false := decide_eq_false he
  rw [hbs, hbe]
  have hu : lengthSqV (normalizeV (castVec (LOSHU_ANCHORS s))) = 1 :=
    lengthSqV_normalizeV hla.ne'
  have hv : lengthSqV (normalizeV (castVec (LOSHU_ANCHORS e))) = 1 :=
    lengthSqV_normalizeV hlb.ne'
  have hdb := dotV_unit_bounds hu hv
  have hclamp : max (-1) (min 1 (dotV (normalizeV (getAnchorPos s radiusScale))
      (normalizeV (getAnchorPos e radiusScale)))) =
      dotV (normalizeV (castVec (LOSHU_ANCHORS s))) (normalizeV (castVec (LOSHU_ANCHORS e))) := by
    rw [hn1, hn2, min_eq_right hdb.2, max_eq_right hdb.1]
  simp only [slerpSample, Bool.or_self]
  rw [if_neg (by simp)]
  rw [hn1, hn2, min_eq_right hdb.2, max_eq_right hdb.1]
  set d : ℝ := dotV (normalizeV (castVec (LOSHU_ANCHORS s)))
    (normalizeV (castVec (LOSHU_ANCHORS e))) with hd_def
  have hcos : Real.cos (Real.arccos d) = d := Real.cos_arccos hdb.1 hdb.2
  have htheta0 : 0 ≤ Real.arccos d := Real.arccos_nonneg d
  have habs : |Real.arccos d| = Real.arccos d := abs_of_nonneg htheta0
  by_cases hfb : |Real.arccos d| < 0.0001
  · -- small-angle linear fallback
    rw [if_pos hfb]
    have hpi : (3 : ℝ) < Real.pi := Real.pi_gt_three
    have hdpos : 0 < d := by
      rw [← hcos]
      apply Real.cos_pos_of_mem_Ioo
      constructor
      · linarith
      · rw [habs] at hfb
        linarith
    have hlerp : 0 < lengthSqV (lerpV (normalizeV (castVec (LOSHU_ANCHORS s)))
        (normalizeV (castVec (LOSHU_ANCHORS e))) t) := by
      rw [lengthSqV_lerp, hu, hv, ← hd_def]
      nlinarith [pow_pos (sub_pos.mpr ht1) 2, sq_nonneg t,
        mul_nonneg (mul_nonneg (sub_pos.mpr ht1).le hdpos.le) ht0]
    have hne : lengthV (lerpV (normalizeV (castVec (LOSHU_ANCHORS s)))
        (normalizeV (castVec (LOSHU_ANCHORS e))) t) ≠ 0 := (lengthV_pos hlerp).ne'
    rw [lengthV_smul, lengthV_normalizeV hne, abs_of_pos hrs, mul_one]
  · -- genuine slerp branch
    rw [if_neg hfb]
    rw [habs] at hfb
    have hd1 : d < 1 := by
      by_contra hcon
      push_neg at hcon
      have : Real.arccos d = 0 := Real.arccos_eq_zero.mpr hcon
      rw [this] at hfb
      norm_num at hfb
    have hdm1 : -1 < d := by
      have hformula : d = (lengthV (castVec (LOSHU_ANCHORS s)))⁻¹ *
          (lengthV (castVec (LOSHU_ANCHORS e)))⁻¹ *
          dotV (castVec (LOSHU_ANCHORS s)) (castVec (LOSHU_ANCHORS e)) := by
        rw [hd_def]
        unfold normalizeV
        rw [if_neg hla.ne', if_neg hlb.ne', dotV_smul]
      rcases hna with hna | hna
      · have hdot : (0 : ℝ) ≤ dotV (castVec (LOSHU_ANCHORS s)) (castVec (LOSHU_ANCHORS e)) := by
          rw [dotV_castVec]
          exact_mod_cast hna
        have : 0 ≤ d := by
          rw [hformula]
          positivity
        linarith
      · have hdot2 : dotV (castVec (LOSHU_ANCHORS s)) (castVec (LOSHU_ANCHORS e)) ^ 2 <
            lengthSqV (castVec (LOSHU_ANCHORS s)) * lengthSqV (castVec (LOSHU_ANCHORS e)) := by
          rw [dotV_castVec, lengthSqV_castVec, lengthSqV_castVec]
          exact_mod_cast hna
        have hd2 : d ^ 2 < 1 := by
          rw [← lengthV_sq, ← lengthV_sq] at hdot2
          have hexp : ((lengthV (castVec (LOSHU_ANCHORS s)))⁻¹ *
              (lengthV (castVec (LOSHU_ANCHORS e)))⁻¹ *
              dotV (castVec (LOSHU_ANCHORS s)) (castVec (LOSHU_ANCHORS e))) ^ 2 =
              dotV (castVec (LOSHU_ANCHORS s)) (castVec (LOSHU_ANCHORS e)) ^ 2 /
                (lengthV (castVec (LOSHU_ANCHORS s)) ^ 2 *
                 lengthV (castVec (LOSHU_ANCHORS e)) ^ 2) := by
            field_simp
            exact Or.inl (by ring)
          rw [hformula, hexp, div_lt_one (by positivity)]
          exact hdot2
        by_contra hcon
        push_neg at hcon
        nlinarith [hd2, mul_nonneg (neg_nonneg.mpr (by linarith : d + 1 ≤ 0))
          (neg_nonneg.mpr (by linarith : d - 1 ≤ 0))]
    have hsin : 0 < Real.sin (Real.arccos d) := by
      rw [Real.sin_arccos]
      apply Real.sqrt_pos.mpr
      nlinarith
    have hcombo : lengthSqV (vadd
        (smul (Real.sin ((1 - t) * Real.arccos d) / Real.sin (Real.arccos d))
          (normalizeV (castVec (LOSHU_ANCHORS s))))
        (smul (Real.sin (t * Real.arccos d) / Real.sin (Real.arccos d))
          (normalizeV (castVec (LOSHU_ANCHORS e))))) = 1 := by
      rw [lengthSqV_combo, hu, hv, ← hd_def]
      have hid := slerp_weight_identity ((1 - t) * Real.arccos d) (t * Real.arccos d)
      rw [show (1 - t) * Real.arccos d + t * Real.arccos d = Real.arccos d by ring, hcos] at hid
      field_simp
      linear_combination Real.sin (Real.arccos d) ^ 4 * hid
    have hne : lengthV (vadd
        (smul (Real.sin ((1 - t) * Real.arccos d) / Real.sin (Real.arccos d))
          (normalizeV (castVec (LOSHU_ANCHORS s))))
        (smul (Real.sin (t * Real.arccos d) / Real.sin (Real.arccos d))
          (normalizeV (castVec (LOSHU_ANCHORS e))))) ≠ 0 :=
      (lengthV_pos (by rw [hcombo]; norm_num)).ne'
    rw [lengthV_smul, lengthV_normalizeV hne, abs_of_pos hrs, mul_one]

/-- C9 (amended): in `generateLoShuEnergyPath`, for a leg whose two anchors
are both non-center and whose anchor directions are not antipodal, every
sampled point lies at distance exactly `SPHERE_RADIUS * radiusScale` from the
origin (for positive `radiusScale`; the near-identical-angle fallback is
renormalized to the same radius); every leg with a center anchor as an
endpoint is a straight linear interpolation between its endpoint positions;
and the path is the concatenation of these per-leg samples. -/
theorem C9_energy_path_leg_radius (s e : ℕ) (radiusScale : ℝ) (segs : ℕ)
    (hs : ¬ lengthSqQ (LOSHU_ANCHORS s) < 0.1)
    (he : ¬ lengthSqQ (LOSHU_ANCHORS e) < 0.1)
    (hna : 0 ≤ dotQ (LOSHU_ANCHORS s) (LOSHU_ANCHORS e) ∨
      dotQ (LOSHU_ANCHORS s) (LOSHU_ANCHORS e) ^ 2 <
        lengthSqQ (LOSHU_ANCHORS s) * lengthSqQ (LOSHU_ANCHORS e))
    (hscale : 0 < radiusScale) :
    (legSamples s e radiusScale segs).map lengthV =
      List.replicate segs ((SPHERE_RADIUS : ℝ) * radiusScale) ∧
    (∀ s' e' : ℕ,
      lengthSqQ (LOSHU_ANCHORS s') < 0.1 ∨ lengthSqQ (LOSHU_ANCHORS e') < 0.1 →
        legSamples s' e' radiusScale segs = (List.range segs).map fun (j : ℕ) =>
          lerpV (getAnchorPos s' radiusScale) (getAnchorPos e' radiusScale)
            ((j : ℝ) / (segs : ℝ))) ∧
    (∀ seq : List ℕ, generateLoShuEnergyPath seq radiusScale segs =
      ((seq.zip seq.tail).flatMap fun se => legSamples se.1 se.2 radiusScale segs) ++
      [getAnchorPos (seq.getLastD 0) radiusScale]) := by
  refine ⟨?_, ?_, fun seq => rfl⟩
  · unfold legSamples
    rw [List.map_map]
    refine List.eq_replicate_iff.mpr ⟨?_, ?_⟩
    · rw [List.length_map, List.length_range]
    · intro b hb
      rw [List.mem_map] at hb
      obtain ⟨j, hj, rfl⟩ := hb
      rw [List.mem_range] at hj
      have hsegs : 0 < segs := Nat.pos_of_ne_zero (by rintro rfl; exact Nat.not_lt_zero j hj)
      have ht0 : 0 ≤ (j : ℝ) / (segs : ℝ) := by positivity
      have ht1 : (j : ℝ) / (segs : ℝ) < 1 := by
        rw [div_lt_one (by exact_mod_cast hsegs)]
        exact_mod_cast hj
      simp only [Function.comp_apply]
      exact slerpSample_norm hs he hna hscale ht0 ht1
  · intro s' e' h
    unfold legSamples
    refine List.map_congr_left ?_
    intro j _
    unfold slerpSample
    rcases h with h | h
    · rw [if_pos (by simp [decide_eq_true h])]
    · rw [if_pos (by simp [decide_eq_true h])]

/-- Witness: the non-center, non-antipodal leg from anchor 1 to anchor 2 of
the default path, at the default radius scale 1.15 and 64 segments. -/
theorem C9_energy_path_leg_radius_witness :
    (legSamples 1 2 (1.15 : ℝ) 64).map lengthV =
      List.replicate 64 ((SPHERE_RADIUS : ℝ) * 1.15) :=
  (C9_energy_path_leg_radius 1 2 1.15 64
    (by norm_num [LOSHU_ANCHORS, lengthSqQ, SPHERE_RADIUS])
    (by norm_num [LOSHU_ANCHORS, lengthSqQ, DCORNER, SPHERE_RADIUS])
    (Or.inr (by norm_num [LOSHU_ANCHORS, dotQ, lengthSqQ, DCORNER, SPHERE_RADIUS]))
    (by norm_num)).1

/-- C9 counterexample: on the closing leg 9→1 of the default sequence the two
anchors are non-center but antipodal; in exact arithmetic the slerp
denominator `sin θ` vanishes (θ = π, and the 1e-4 fallback does not fire), so
the first sampled point of that leg comes out at the origin — at distance 0,
not `SPHERE_RADIUS * 1.15` — refuting the claim as stated for every leg. -/
theorem C9_counterexample :
    (legSamples 9 1 (1.15 : ℝ) 64).head?.map lengthV = some 0 ∧
    (0 : ℝ) ≠ (SPHERE_RADIUS : ℝ) * 1.15 := by
  constructor
  · have h9 : ¬ lengthSqQ (LOSHU_ANCHORS 9) < 0.1 := by
      norm_num [LOSHU_ANCHORS, lengthSqQ, SPHERE_RADIUS]
    have h1 : ¬ lengthSqQ (LOSHU_ANCHORS 1) < 0.1 := by
      norm_num [LOSHU_ANCHORS, lengthSqQ, SPHERE_RADIUS]
    have hhead : (legSamples 9 1 (1.15 : ℝ) 64).head? =
        some (slerpSample (getAnchorPos 9 1.15) (getAnchorPos 1 1.15)
          (decide (lengthSqQ (LOSHU_ANCHORS 9) < 0.1))
          (decide (lengthSqQ (LOSHU_ANCHORS 1) < 0.1)) 1.15
          (((0 : ℕ) : ℝ) / ((64 : ℕ) : ℝ))) := rfl
    rw [hhead]
    simp only [Option.map_some', Option.some.injEq]
    have ha9 : castVec (LOSHU_ANCHORS 9) = ⟨0, 18, 0⟩ := by
      unfold castVec LOSHU_ANCHORS SPHERE_RADIUS
      ext <;> norm_num
    have ha1 : castVec (LOSHU_ANCHORS 1) = ⟨0, -18, 0⟩ := by
      unfold castVec LOSHU_ANCHORS SPHERE_RADIUS
      ext <;> norm_num
    have hsq9 : lengthSqV (⟨0, 18, 0⟩ : Vec3) = 324 := by
      unfold lengthSqV
      norm_num
    have hsq1 : lengthSqV (⟨0, -18, 0⟩ : Vec3) = 324 := by
      unfold lengthSqV
      norm_num
    have hl9 : lengthV (⟨0, 18, 0⟩ : Vec3) = 18 := by
      unfold lengthV
      rw [hsq9, show (324 : ℝ) = 18 ^ 2 by norm_num,
        Real.sqrt_sq (by norm_num : (0 : ℝ) ≤ 18)]
    have hl1 : lengthV (⟨0, -18, 0⟩ : Vec3) = 18 := by
      unfold lengthV
      rw [hsq1, show (324 : ℝ) = 18 ^ 2 by norm_num,
        Real.sqrt_sq (by norm_num : (0 : ℝ) ≤ 18)]
    have hn9 : normalizeV (castVec (LOSHU_ANCHORS 9)) = ⟨0, 1, 0⟩ := by
      rw [ha9]
      unfold normalizeV
      rw [if_neg (by rw [hl9]; norm_num), hl9]
      unfold smul
      ext <;> norm_num
    have hn1 : normalizeV (castVec (LOSHU_ANCHORS 1)) = ⟨0, -1, 0⟩ := by
      rw [ha1]
      unfold normalizeV
      rw [if_neg (by rw [hl1]; norm_num), hl1]
      unfold smul
      ext <;> norm_num
    have hu9 : lengthV (⟨0, 1, 0⟩ : Vec3) = 1 := by
      unfold lengthV lengthSqV
      rw [show ((⟨0, 1, 0⟩ : Vec3).x * (⟨0, 1, 0⟩ : Vec3).x +
        (⟨0, 1, 0⟩ : Vec3).y * (⟨0, 1, 0⟩ : Vec3).y +
        (⟨0, 1, 0⟩ : Vec3).z * (⟨0, 1, 0⟩ : Vec3).z) = 1 by norm_num]
      exact Real.sqrt_one
    have hu1 : lengthV (⟨0, -1, 0⟩ : Vec3) = 1 := by
      unfold lengthV lengthSqV
      rw [show ((⟨0, -1, 0⟩ : Vec3).x * (⟨0, -1, 0⟩ : Vec3).x +
        (⟨0, -1, 0⟩ : Vec3).y * (⟨0, -1, 0⟩ : Vec3).y +
        (⟨0, -1, 0⟩ : Vec3).z * (⟨0, -1, 0⟩ : Vec3).z) = 1 by norm_num]
      exact Real.sqrt_one
    have hpos : (0 : ℝ) < (SPHERE_RADIUS : ℝ) * 1.15 := by
      norm_num [SPHERE_RADIUS]
    have hg9 : normalizeV (getAnchorPos 9 1.15) = ⟨0, 1, 0⟩ := by
      unfold getAnchorPos
      rw [if_neg h9, hn9, normalizeV_smul_pos hpos (by rw [hu9]; norm_num),
        normalizeV_of_unit hu9]
    have hg1 : normalizeV (getAnchorPos 1 1.15) = ⟨0, -1, 0⟩ := by
      unfold getAnchorPos
      rw [if_neg h1, hn1, normalizeV_smul_pos hpos (by rw [hu1]; norm_num),
        normalizeV_of_unit hu1]
    rw [decide_eq_false h9, decide_eq_false h1]
    simp only [slerpSample, Bool.or_self]
    rw [if_neg (by simp)]
    rw [hg9, hg1]
    have hdot : dotV (⟨0, 1, 0⟩ : Vec3) (⟨0, -1, 0⟩ : Vec3) = -1 := by
      unfold dotV
      norm_num
    rw [hdot]
    rw [show max (-1 : ℝ) (min 1 (-1 : ℝ)) = -1 by norm_num, Real.arccos_neg_one]
    rw [if_neg (by
      rw [abs_of_pos Real.pi_pos]
      push_neg
      linarith [Real.pi_gt_three])]
    rw [Real.sin_pi]
    simp only [div_zero]
    have hvec : vadd (smul 0 (⟨0, 1, 0⟩ : Vec3)) (smul 0 (⟨0, -1, 0⟩ : Vec3)) =
        (⟨0, 0, 0⟩ : Vec3) := by
      unfold vadd smul
      ext <;> norm_num
    rw [hvec]
    have hn0 : normalizeV (⟨0, 0, 0⟩ : Vec3) = ⟨0, 0, 0⟩ := by
      unfold normalizeV
      split_ifs <;> (unfold smul; ext <;> norm_num)
    rw [hn0]
    rw [show smul ((SPHERE_RADIUS : ℝ) * 1.15) (⟨0, 0, 0⟩ : Vec3) = (⟨0, 0, 0⟩ : Vec3) by
      unfold smul; ext <;> norm_num]
    unfold lengthV lengthSqV
    rw [show ((⟨0, 0, 0⟩ : Vec3).x * (⟨0, 0, 0⟩ : Vec3).x +
      (⟨0, 0, 0⟩ : Vec3).y * (⟨0, 0, 0⟩ : Vec3).y +
      (⟨0, 0, 0⟩ : Vec3).z * (⟨0, 0, 0⟩ : Vec3).z) = 0 by norm_num]
    exact Real.sqrt_zero
  · norm_num [SPHERE_RADIUS]

end HT
